import Mathlib

/-!
Verification development for the mcp-navigator repository.

The JavaScript backend (`src/backend/tools.js`, `registry.js`, `ai.js`,
`handlers.js`) and the browser-side result formatter (`mcpNavApp.js`) are
shallowly embedded below.  Network effects (the Groq Responses gateway, the
public MCP-registry fetch) and JavaScript builtins (`JSON.parse`, `new URL`)
are passed in as explicit oracle inputs, so every embedded function is a pure,
executable Lean definition that mirrors the source statement by statement.
-/

namespace McpNav

/-! ## Basic JavaScript-style utilities -/

/-- First-match association-list lookup, modelling `obj[key]` on a
JavaScript object represented as an insertion-ordered list of entries
(`none` plays the role of `undefined`). -/
def alookup {α : Type} : List (String × α) → String → Option α
  | [], _ => none
  | (k, v) :: rest, key => if k = key then some v else alookup rest key

/-- JavaScript object spread `{...a, ...b}`: keys of `a` in order (entries
also present in `b` take the value from `b`), followed by the entries of `b`
whose keys are not in `a`. -/
def objSpread {α : Type} (a b : List (String × α)) : List (String × α) :=
  a.map (fun p => (p.1, (alookup b p.1).getD p.2)) ++
    b.filter (fun p => (alookup a p.1).isNone)

/-- JavaScript object assignment `obj[k] = v`: overwrite in place when the
key is present, otherwise append the new entry. -/
def objSet {α : Type} (o : List (String × α)) (k : String) (v : α) :
    List (String × α) :=
  if (alookup o k).isSome then
    o.map (fun p => if p.1 = k then (k, v) else p)
  else
    o ++ [(k, v)]

/-- JavaScript `delete obj[k]`. -/
def objDelete {α : Type} (o : List (String × α)) (k : String) :
    List (String × α) :=
  o.filter (fun p => p.1 ≠ k)

/-- `l₂` occurs at the head of `l₁`. -/
def listStarts : List Char → List Char → Bool
  | _, [] => true
  | [], _ :: _ => false
  | a :: as, b :: bs => a = b && listStarts as bs

/-- `needle` occurs contiguously somewhere in `hay`
(JavaScript `String.prototype.includes`). -/
def listHasSub (hay needle : List Char) : Bool :=
  match hay with
  | [] => listStarts [] needle
  | _ :: rest => listStarts hay needle || listHasSub rest needle

/-- `hay.includes(needle)` for strings. -/
def containsStr (hay needle : String) : Bool :=
  listHasSub hay.data needle.data

/-- `s.toLowerCase()` (ASCII, which covers every string this system builds). -/
def jsToLower (s : String) : String :=
  ⟨s.data.map Char.toLower⟩

/-- `s.toUpperCase()` (ASCII). -/
def jsToUpper (s : String) : String :=
  ⟨s.data.map Char.toUpper⟩

def isAsciiAlphanum (c : Char) : Bool :=
  (('a' ≤ c && c ≤ 'z') || ('A' ≤ c && c ≤ 'Z') || ('0' ≤ c && c ≤ '9'))

/-- `s.toLowerCase().replace(/[^a-zA-Z0-9]/g, '_')` — the fuzzy-match
normalisation used by the public-registry lookup. -/
def normalizeName (s : String) : String :=
  ⟨(jsToLower s).data.map (fun c => if isAsciiAlphanum c then c else '_')⟩

/-- `s.replace(/[^a-zA-Z0-9_]/g, '_')` — the safe-name sanitiser in
`generateConfigFromServer`. -/
def safeNameOf (s : String) : String :=
  ⟨s.data.map (fun c => if isAsciiAlphanum c || c = '_' then c else '_')⟩

/-- `s.toUpperCase()` with every dash replaced by an underscore — the
environment-variable naming used for secret headers. -/
def upperUnderscore (s : String) : String :=
  ⟨(jsToUpper s).data.map (fun c => if c = '-' then '_' else c)⟩

/-- `s.split(c)` on a single-character separator, on character lists. -/
def splitOnChar (c : Char) : List Char → List (List Char)
  | [] => [[]]
  | x :: rest =>
      let r := splitOnChar c rest
      if x = c then [] :: r
      else
        match r with
        | h :: t => (x :: h) :: t
        | [] => [[x]]

/-- JavaScript `s.split(c)` for a one-character separator. -/
def jsSplit (s : String) (c : Char) : List String :=
  (splitOnChar c s.data).map (fun l => ⟨l⟩)

def isJsSpace (c : Char) : Bool :=
  c = ' ' || c = '\t' || c = '\n' || c = '\r'

/-- JavaScript `s.trim()` (over the whitespace this system encounters). -/
def jsTrim (s : String) : String :=
  ⟨((s.data.dropWhile isJsSpace).reverse.dropWhile isJsSpace).reverse⟩

/-! ## `src/backend/tools.js` -/

/-- The process environment (`Deno.env.get`): `none` is an unset variable. -/
abbrev Env := String → Option String

/-- A header-template value: either a literal string, or a credential thunk —
a JavaScript function closed over `Deno.env` that yields a string or
`undefined` (`none`). -/
inductive HVal where
  | lit : String → HVal
  | thunk : (Env → Option String) → HVal

/-- The `_registry` block attached by `generateConfigFromServer`. -/
structure RegInfo where
  name : String
  description : Option String
  version : Option String
  repository : Option String

/-- A tool descriptor as stored in `toolsRegistry` or synthesized
dynamically.  `headers = none` models a config without a `headers` field;
`hasMeta` records presence of the documentation-only `_meta` block. -/
structure ToolConfig where
  type : String
  server_label : String
  server_url : String
  headers : Option (List (String × HVal))
  require_approval : String
  hasMeta : Bool
  registry : Option RegInfo

/-- A fully resolved tool configuration: `_meta`/`_registry` stripped and all
header values materialized.  A header value of `none` is JavaScript
`undefined` (a thunk that read an unset environment variable). -/
structure ResolvedConfig where
  type : String
  server_label : String
  server_url : String
  headers : List (String × Option String)
  require_approval : String

/-- `Bearer ${Deno.env.get(NAME)}` — template-literal interpolation
stringifies `undefined`. -/
def jsInterp (v : Option String) : String :=
  match v with
  | some s => s
  | none => "undefined"

/-- The static `toolsRegistry` from `src/backend/tools.js`. -/
def toolsRegistry : List (String × ToolConfig) :=
  [ ("parallel_web_search",
     { type := "mcp"
       server_label := "parallel_web_search"
       server_url := "https://mcp.parallel.ai/v1beta/search_mcp/"
       headers := some [("x-api-key", .thunk (fun env => env "PARALLEL_API_KEY"))]
       require_approval := "never"
       hasMeta := true
       registry := none }),
    ("github",
     { type := "mcp"
       server_label := "GitHub"
       server_url := "https://api.githubcopilot.com/mcp/"
       headers := some [("Authorization",
         .thunk (fun env => some ("Bearer " ++ jsInterp (env "GITHUB_TOKEN"))))]
       require_approval := "never"
       hasMeta := true
       registry := none }),
    ("huggingface",
     { type := "mcp"
       server_label := "Huggingface"
       server_url := "https://huggingface.co/mcp"
       headers := some []
       require_approval := "never"
       hasMeta := true
       registry := none }) ]

/-- One header entry of the resolution loop in `resolveToolConfig`:
a truthy (present and non-empty) caller override wins, otherwise a function
value is invoked against the environment, otherwise the literal is kept. -/
def resolveHeaderEntry (userHeaders : List (String × String)) (env : Env)
    (k : String) (v : HVal) : Option String :=
  match alookup userHeaders k with
  | some u =>
      if u ≠ "" then some u
      else
        match v with
        | .thunk f => f env
        | .lit s => some s
  | none =>
      match v with
      | .thunk f => f env
      | .lit s => some s

/-- `resolveToolConfig(toolConfig, userHeaders)` from `src/backend/tools.js`:
shallow-copy the descriptor, drop `_meta`/`_registry`, resolve each template
header (caller override / thunk / literal), then spread the caller headers
over the result so that extra caller headers are added verbatim. -/
def resolveToolConfig (cfg : ToolConfig) (userHeaders : List (String × String))
    (env : Env) : ResolvedConfig :=
  let userAsVals : List (String × Option String) :=
    userHeaders.map (fun p => (p.1, some p.2))
  let finalHeaders : List (String × Option String) :=
    match cfg.headers with
    | some hs =>
        objSpread (hs.map (fun p => (p.1, resolveHeaderEntry userHeaders env p.1 p.2)))
          userAsVals
    | none => userAsVals
  { type := cfg.type
    server_label := cfg.server_label
    server_url := cfg.server_url
    headers := finalHeaders
    require_approval := cfg.require_approval }

/-! ## `src/backend/registry.js` -/

/-- A header requirement advertised by a public-catalog remote. -/
structure RemoteHeader where
  name : String
  isSecret : Bool
  value : Option String
deriving DecidableEq

/-- A remote endpoint advertised by a public-catalog server entry. -/
structure Remote where
  type : String
  url : String
  headers : Option (List RemoteHeader)
deriving DecidableEq

/-- One server entry of the public MCP registry catalog. -/
structure ServerEntry where
  name : String
  description : Option String
  version : Option String
  repositoryUrl : Option String
  remotes : Option (List Remote)
deriving DecidableEq

/-- The template-literal source text stored for a secret header:
the JavaScript arrow-function source as a plain string. -/
def secretThunkSource (name : String) : String :=
  "() => Deno.env.get(\"" ++ upperUnderscore name ++ "\")"

/-- The remote picked by `generateConfigFromServer`: prefer the first
`streamable-http` remote, otherwise `remotes[0]`; `none` when the entry
advertises no remote at all. -/
def chooseRemote (s : ServerEntry) : Option Remote :=
  match s.remotes with
  | some rs =>
      if rs.length > 0 then
        match rs.find? (fun r => r.type = "streamable-http") with
        | some r => some r
        | none => rs.head?
      else none
  | none => none

/-- The `remote.headers.forEach` loop of `generateConfigFromServer`:
secret headers get the arrow-function *source text* as a plain string value;
non-secret headers keep their (truthy) literal value; others are dropped. -/
def remoteHeadersToConfig (hs : List RemoteHeader) : List (String × HVal) :=
  hs.foldl
    (fun acc h =>
      if h.isSecret then objSet acc h.name (.lit (secretThunkSource h.name))
      else
        match h.value with
        | some v => if v ≠ "" then objSet acc h.name (.lit v) else acc
        | none => acc)
    []

/-- The note text of the local-install-only return of
`generateConfigFromServer`. -/
def localInstallNoteText : String :=
  "No remote URL found - this server may require local installation"

/-- Result of `generateConfigFromServer`: either the `note`-shaped object
`\x7bnote, packages\x7d` for local-install-only servers (carrying the note
string, which is the value `Object.keys(...)[0]` addresses), or the
sanitized key plus descriptor. -/
inductive GenConfig where
  | note : String → GenConfig
  | config : String → ToolConfig → GenConfig

/-- `generateConfigFromServer(server)` from `src/backend/registry.js`. -/
def generateConfigFromServer (s : ServerEntry) : GenConfig :=
  match chooseRemote s with
  | none => .note localInstallNoteText
  | some remote =>
      if remote.url = "" then .note localInstallNoteText
      else
        .config (safeNameOf s.name)
          { type := "mcp"
            server_label := s.name
            server_url := remote.url
            headers := some
              (match remote.headers with
               | some hs => remoteHeadersToConfig hs
               | none => [])
            require_approval := "never"
            hasMeta := false
            registry := some
              { name := s.name, description := s.description,
                version := s.version, repository := s.repositoryUrl } }

/-- The fuzzy match of `lookupFromMcpRegistry`: normalized equality or
substring containment in either direction. -/
def fuzzyNameMatch (toolName candidate : String) : Bool :=
  let ns := normalizeName toolName
  let nn := normalizeName candidate
  nn = ns || containsStr nn ns || containsStr ns nn

/-- Candidate selection of `lookupFromMcpRegistry`: exact `find` over the
whole catalog, then the fuzzy `find` over the whole catalog. -/
def registryCandidate (servers : List ServerEntry) (toolName : String) :
    Option ServerEntry :=
  match servers.find? (fun s => s.name = toolName) with
  | some s => some s
  | none => servers.find? (fun s => fuzzyNameMatch toolName s.name)

/-- What the lookup hands back to its callers: either a proper tool
descriptor, or — on the local-install-only path — the truthy note *string*
itself, which callers then treat as a found configuration. -/
inductive FoundConfig where
  | config : ToolConfig → FoundConfig
  | noteStr : String → FoundConfig

/-- `lookupFromMcpRegistry(toolName)` from `src/backend/registry.js`.
`catalog = none` models a failed or non-OK registry fetch (the function
catches every error and returns `null`).  The source matches over the
*whole* catalog (exact first, then fuzzy) and only afterwards inspects the
single matched entry.  For a local-install-only match the final guard
misfires: `configKey` is `"note"`, so `configMap[configKey]` is the note
*string* and `configMap[configKey].note` is `undefined` — the function
returns the truthy note string instead of `null`. -/
def lookupFromMcpRegistry (catalog : Option (List ServerEntry))
    (toolName : String) : Option FoundConfig :=
  match catalog with
  | none => none
  | some servers =>
      match registryCandidate servers toolName with
      | none => none
      | some s =>
          match generateConfigFromServer s with
          | .note text => some (.noteStr text)
          | .config key cfg => if key = "" then none else some (.config cfg)

/-- Written from the spec's words for comparison (claim C5): first filter
the catalog to entries advertising at least one remote endpoint, then match
by exact name over the eligible entries, then fuzzy-match; the first
matching eligible candidate in catalog order wins. -/
def specFilterFirstCandidate (servers : List ServerEntry) (toolName : String) :
    Option ServerEntry :=
  let eligible := servers.filter (fun s => (s.remotes.getD []).length > 0)
  match eligible.find? (fun s => s.name = toolName) with
  | some s => some s
  | none => eligible.find? (fun s => fuzzyNameMatch toolName s.name)

/-- A local-install-only catalog entry named "foo". -/
def cexServerNoRemote : ServerEntry :=
  { name := "foo", description := some "local only", version := none,
    repositoryUrl := none, remotes := none }

/-- An eligible catalog entry, also named "foo", listed after the
local-install-only one. -/
def cexServerRemote : ServerEntry :=
  { name := "foo", description := some "hosted", version := none,
    repositoryUrl := none,
    remotes := some [{ type := "streamable-http",
                       url := "https://foo.example/mcp", headers := none }] }

/-- C5 as amended: the lookup matches over the *unfiltered* catalog — exact
name first, then fuzzy (lowercase, non-alphanumerics replaced by `_`,
equality or containment either way), first candidate in catalog order — and
only then inspects the single matched entry, without falling back to later
candidates: an eligible match yields its synthesized descriptor, while for
a local-install-only match the misfiring `configMap[configKey].note` guard
makes the lookup return the truthy note string, which callers treat as a
found configuration. -/
def amendedRegistryLookup (servers : List ServerEntry) (toolName : String) :
    Option FoundConfig :=
  match registryCandidate servers toolName with
  | none => none
  | some s =>
      match chooseRemote s with
      | none => some (.noteStr localInstallNoteText)
      | some remote =>
          if remote.url = "" then some (.noteStr localInstallNoteText)
          else if safeNameOf s.name = "" then none
          else some (.config
            { type := "mcp"
              server_label := s.name
              server_url := remote.url
              headers := some
                (match remote.headers with
                 | some hs => remoteHeadersToConfig hs
                 | none => [])
              require_approval := "never"
              hasMeta := false
              registry := some
                { name := s.name, description := s.description,
                  version := s.version, repository := s.repositoryUrl } })

/-! ## JSON values

`JSON.parse` is a JavaScript builtin; the embedding passes it in as an
oracle `String → Option Json` (`none` models a parse exception). -/

inductive Json where
  | null
  | bool : Bool → Json
  | num : Int → Json
  | str : String → Json
  | arr : List Json → Json
  | obj : List (String × Json) → Json

/-- JavaScript truthiness of a JSON value. -/
def jsonTruthy : Json → Bool
  | .null => false
  | .bool b => b
  | .num n => n ≠ 0
  | .str s => s ≠ ""
  | .arr _ => true
  | .obj _ => true

/-- Property access `j.k`: `none` is `undefined`. -/
def jget (j : Json) (k : String) : Option Json :=
  match j with
  | .obj fs => alookup fs k
  | _ => none

/-- Truthiness of `j.k` (`undefined` is falsy). -/
def jfieldTruthy (j : Json) (k : String) : Bool :=
  match jget j k with
  | some v => jsonTruthy v
  | none => false

/-- Strict string comparison `j.k === s`. -/
def jstrEq (o : Option Json) (s : String) : Bool :=
  match o with
  | some (.str t) => t = s
  | _ => false

/-- Property assignment `j.k = v` (no effect on primitives, which is
unreachable for the uses below). -/
def jsetField (j : Json) (k : String) (v : Json) : Json :=
  match j with
  | .obj fs => .obj (objSet fs k v)
  | _ => j

/-! ## `src/backend/ai.js` — `llmRouter` -/

/-- A chat-history message `{type: 'user'|'assistant', content}`. -/
structure ChatMsg where
  type : String
  content : String

/-- The `conversationContext` string built at the top of `llmRouter` (and
reused by the synthesized `direct_response` prompt). -/
def conversationContextOf (history : List ChatMsg) : String :=
  if history.length > 0 then
    "\n\nCONVERSATION HISTORY:\n" ++
      history.foldl
        (fun acc msg =>
          acc ++ (if msg.type = "user" then "User" else "Assistant") ++ ": "
            ++ msg.content ++ "\n") ""
      ++ "\n"
  else ""

/-- The prompt synthesized when a `direct_response` decision arrives without
a `prompt` field. -/
def synthesizedDirectPrompt (userQuery : String) (history : List ChatMsg) :
    String :=
  "You are a helpful AI assistant. " ++ conversationContextOf history ++
    " Answer the user's question: '" ++ userQuery ++
    "' using your general knowledge. Be conversational and helpful."

/-- Outcome of the routing `fetch` against the upstream chat-completions
endpoint: the call threw, or returned a response with an `ok` flag and the
(optional) `choices[0].message.content` string. -/
inductive RouterUpstream where
  | fetchThrow : RouterUpstream
  | resp : Bool → Option String → RouterUpstream

/-- The fallback decision built after a parse/validation failure inside the
`try` block. -/
def routerFallbackParse : Json :=
  .obj [("type", .str "tool_execution"),
        ("reasoning", .str "routing failed, defaulting to tool execution")]

/-- The fallback decision built by the outer `catch`. -/
def routerFallbackError : Json :=
  .obj [("type", .str "tool_execution"),
        ("reasoning", .str "router error, defaulting to tool execution")]

/-- `llmRouter(userQuery, apiKey, model, conversationHistory)` from
`src/backend/ai.js`.  A non-OK response throws inside the `try` and is
caught by the outer `catch`; a missing/empty/unparseable decision or one
with a falsy `type` or `reasoning` falls through to the in-`try` fallback;
a truthy parsed decision is returned as-is (with a synthesized `prompt` for
a prompt-less `direct_response`). -/
def llmRouter (userQuery : String) (history : List ChatMsg)
    (jsonParse : String → Option Json) (upstream : RouterUpstream) : Json :=
  match upstream with
  | .fetchThrow => routerFallbackError
  | .resp ok content =>
      if !ok then routerFallbackError
      else
        match content with
        | none => routerFallbackParse
        | some decision =>
            if decision = "" then routerFallbackParse
            else
              match jsonParse decision with
              | none => routerFallbackParse
              | some parsed =>
                  if jfieldTruthy parsed "type" && jfieldTruthy parsed "reasoning" then
                    if jstrEq (jget parsed "type") "direct_response"
                        && !(jfieldTruthy parsed "prompt") then
                      jsetField parsed "prompt"
                        (.str (synthesizedDirectPrompt userQuery history))
                    else parsed
                  else routerFallbackParse

/-- Written from the spec's words for comparison (claim C4): the expected
structured shape of a routing decision — an object whose `type` is one of
the four enumerated intents and whose `reasoning` is a string. -/
def specExpectedRoutingShape (j : Json) : Bool :=
  match j with
  | .obj fs =>
      (match alookup fs "type" with
       | some (.str t) =>
           t = "introspection" || t = "direct_response" ||
             t = "tool_execution" || t = "curl_generation"
       | _ => false) &&
      (match alookup fs "reasoning" with
       | some (.str _) => true
       | _ => false)
  | _ => false

/-- The upstream reply used in the C4 counterexample. -/
def cexRouterReply : String := "\x7b\"type\":\"banana\",\"reasoning\":\"r\"\x7d"

/-- The parsed form of `cexRouterReply`. -/
def cexRouterParsed : Json :=
  .obj [("type", .str "banana"), ("reasoning", .str "r")]

/-- A concrete `JSON.parse` oracle for the C4 counterexample. -/
def cexRouterParse : String → Option Json := fun s =>
  if s = cexRouterReply then some cexRouterParsed else none

/-- The disjunction of upstream outcomes on which `llmRouter` actually
degrades: a thrown call, a non-OK status, missing or empty content, content
that fails `JSON.parse`, or a parsed value without truthy `type` and
`reasoning` fields. -/
def routerDegradeCase (jsonParse : String → Option Json)
    (upstream : RouterUpstream) : Prop :=
  upstream = .fetchThrow ∨
  (∃ c, upstream = .resp false c) ∨
  upstream = .resp true none ∨
  upstream = .resp true (some "") ∨
  (∃ s, upstream = .resp true (some s) ∧ s ≠ "" ∧ jsonParse s = none) ∨
  (∃ s j, upstream = .resp true (some s) ∧ s ≠ "" ∧ jsonParse s = some j ∧
    (jfieldTruthy j "type" && jfieldTruthy j "reasoning") = false)

/-! ## `src/backend/handlers.js` — selection parsing (`aiToolSelection`) -/

/-- Index of the first occurrence of a character. -/
def firstIdx (cs : List Char) (c : Char) : Option Nat :=
  match cs with
  | [] => none
  | x :: rest => if x = c then some 0 else (firstIdx rest c).map (· + 1)

/-- Index of the last occurrence of a character. -/
def lastIdx (cs : List Char) (c : Char) : Option Nat :=
  match cs with
  | [] => none
  | x :: rest =>
      match lastIdx rest c with
      | some i => some (i + 1)
      | none => if x = c then some 0 else none

/-- The greedy brace regex used by `aiToolSelection` on the model's raw
reply: it matches from the first opening brace through the last closing
brace (there must be a closing brace after the first opening one). -/
def extractJsonSpan (s : String) : Option String :=
  match firstIdx s.data '\x7b', lastIdx s.data '\x7d' with
  | some i, some j =>
      if i < j then some ⟨(s.data.drop i).take (j - i + 1)⟩ else none
  | _, _ => none

/-- Result of the selection-parsing block: the parsed selection object, or
the structured parse-failure return (which carries a diagnostic string). -/
inductive SelectionParse where
  | ok : Json → SelectionParse
  | fail : String → SelectionParse

/-- The `try { ... jsonMatch ... JSON.parse ... }` block of
`aiToolSelection`: locate a JSON object in the reply text and parse it;
no retry and no truncation happen here or afterwards. -/
def parseSelection (jsonParse : String → Option Json)
    (responseText : String) : SelectionParse :=
  match extractJsonSpan responseText with
  | some jsonStr =>
      match jsonParse jsonStr with
      | some j => .ok j
      | none => .fail "Failed to parse AI tool selection"
  | none => .fail "No JSON found in AI response"

/-- `selectedTools.selected_tools?.map(t => t.name) || []` as computed by
`executeSelectedTools` on the parsed selection object.  (A truthy
non-array `selected_tools` value would throw in JavaScript; the embedding
returns `[]` there, a case no claim touches.) -/
def executionToolNames (selectedTools : Json) : List (Option Json) :=
  match jget selectedTools "selected_tools" with
  | some (.arr xs) => xs.map (fun t => jget t "name")
  | _ => []

/-- One selection entry used by the C7 counterexample. -/
def cexSelEntry (n : String) : Json :=
  .obj [("name", .str n), ("reason", .str "relevant"),
        ("registry", .str "local")]

/-- A four-tool selection object: more than the spec's cap of 3. -/
def cexSelectionJson : Json :=
  .obj [("selected_tools",
          .arr [cexSelEntry "github", cexSelEntry "huggingface",
                cexSelEntry "parallel_web_search", cexSelEntry "extra_tool"]),
        ("execution_query", .str "do all the things")]

/-- The raw JSON text of the four-tool selection reply. -/
def cexSelectionSpan : String :=
  "\x7b\"selected_tools\": [" ++
    "\x7b\"name\": \"github\", \"reason\": \"relevant\", \"registry\": \"local\"\x7d, " ++
    "\x7b\"name\": \"huggingface\", \"reason\": \"relevant\", \"registry\": \"local\"\x7d, " ++
    "\x7b\"name\": \"parallel_web_search\", \"reason\": \"relevant\", \"registry\": \"local\"\x7d, " ++
    "\x7b\"name\": \"extra_tool\", \"reason\": \"relevant\", \"registry\": \"local\"\x7d" ++
    "], \"execution_query\": \"do all the things\"\x7d"

/-- The model's raw reply wrapping that JSON in prose. -/
def cexSelectionReply : String := "Sure thing! " ++ cexSelectionSpan

/-- A concrete `JSON.parse` oracle for the C7 counterexample. -/
def cexSelectionParse : String → Option Json := fun s =>
  if s = cexSelectionSpan then some cexSelectionJson else none

/-! ## `src/backend/handlers.js` — tool resolution and execution

The embedding passes the JavaScript builtins and network effects in as an
explicit `World`: the `new URL` parser, the public-registry catalog reply,
the process environment, the outcome of each successive Upstream Gateway
(`groqResponses`) call, and the current `toolSchemaCache` contents. -/

/-- The result of `new URL(s)`: scheme (with trailing colon) and hostname. -/
structure UrlObj where
  protocol : String
  hostname : String
deriving DecidableEq

/-- One cached discovered-function descriptor; `params` holds the keys of
`inputSchema.properties` (`none` models a missing schema/properties). -/
structure ToolSchemaEntry where
  name : String
  params : Option (List String)
deriving DecidableEq

/-- The external world of one request. -/
structure World where
  parseUrl : String → Option UrlObj
  catalog : Option (List ServerEntry)
  env : Env
  gw : Nat → Except String Json
  cache : List (String × List ToolSchemaEntry)

/-- `isUrlTool(toolParam)`: `new URL` succeeds and the protocol is http or
https. -/
def isUrlTool (w : World) (toolParam : String) : Bool :=
  match w.parseUrl toolParam with
  | some u => u.protocol = "http:" || u.protocol = "https:"
  | none => false

/-- The per-server configuration looked up by `getMcpServerConfig`. -/
structure McpServerConfig where
  defaultHeaders : List (String × HVal)
  requireApproval : String

/-- `MCP_SERVER_CONFIG.default`: empty default headers, approval "never". -/
def mcpServerConfigDefault : McpServerConfig :=
  { defaultHeaders := [], requireApproval := "never" }

/-- `getMcpServerConfig(url)`: the override table holds only the `default`
entry, so every URL (valid or not — the `catch` included) resolves to the
default configuration. -/
def getMcpServerConfig (w : World) (url : String) : McpServerConfig :=
  match w.parseUrl url with
  | some _ => mcpServerConfigDefault
  | none => mcpServerConfigDefault

/-- `createConfigFromUrl(url)` from `src/backend/handlers.js`. -/
def createConfigFromUrl (w : World) (url : String) : Option ToolConfig :=
  match w.parseUrl url with
  | none => none
  | some u =>
      let serverConfig := getMcpServerConfig w url
      some
        { type := "mcp"
          server_label := "Custom MCP Server (" ++ u.hostname ++ ")"
          server_url := url
          headers := some serverConfig.defaultHeaders
          require_approval := serverConfig.requireApproval
          hasMeta := true
          registry := none }

/-- `findServerForTool(toolName, discoveredServers)`: first discovered
server (in map insertion order) whose announced tool list contains the
name.  The map itself is the output of `extractDiscoveredServers` on the
conversation history, passed in explicitly. -/
def findServerForTool (toolName : String)
    (discovered : List (String × List String)) : Option String :=
  match discovered with
  | [] => none
  | (url, tools) :: rest =>
      if tools.contains toolName then some url
      else findServerForTool toolName rest

/-- `getCachedToolSchema(toolName, serverUrl)`: cache key is
`` `${toolName}_${serverUrl}` ``, then a `find` on the cached list. -/
def getCachedToolSchema (w : World) (toolName serverUrl : String) :
    Option ToolSchemaEntry :=
  match alookup w.cache (toolName ++ "_" ++ serverUrl) with
  | some cachedTools => cachedTools.find? (fun t => t.name = toolName)
  | none => none

/-- Each non-alphanumeric character replaced by `_` (no lowercasing) —
the second `possibleKeys` variation. -/
def replaceNonAlnum (s : String) : String :=
  ⟨s.data.map (fun c => if isAsciiAlphanum c then c else '_')⟩

/-- `s.split(sep).pop()`. -/
def lastSegmentAfter (sep : Char) (s : String) : String :=
  (jsSplit s sep).getLastD s

/-- The caller-header mapping step of `handleToolExecution`: direct key
first; when that yields an empty map, the first `possibleKeys` variation
present in the caller's map (even bound to an empty object) wins. -/
def headersForTool (uth : List (String × List (String × String)))
    (toolName : String) : List (String × String) :=
  let direct := (alookup uth toolName).getD []
  if direct.length = 0 then
    let possibleKeys := [jsToLower toolName, replaceNonAlnum toolName,
      lastSegmentAfter '/' toolName, lastSegmentAfter '.' toolName]
    match possibleKeys.find? (fun k => (alookup uth k).isSome) with
    | some k => (alookup uth k).getD []
    | none => direct
  else direct

/-- Outcome of resolving one requested tool name through the full chain
(static registry → URL literal → conversation-discovered server → public
registry), with source flags and whether the public registry was consulted. -/
structure ResolvedName where
  config : Option FoundConfig
  fromUrl : Bool
  fromConversation : Bool
  fromMcpRegistry : Bool
  lookedUpRegistry : Bool

/-- The per-name resolution block of the `handleToolExecution` loop.  Note
the source initializes from the static registry and then *overwrites* the
variable on the URL branch, and consults the public registry only when
everything before produced nothing. -/
def resolveName (w : World) (discovered : List (String × List String))
    (toolName : String) : ResolvedName :=
  let cfg0 := alookup toolsRegistry toolName
  let step1 : Option ToolConfig × Bool :=
    if isUrlTool w toolName then
      match createConfigFromUrl w toolName with
      | some c => (some c, true)
      | none => (none, false)
    else (cfg0, false)
  let step2 : Option ToolConfig × Bool :=
    match step1.1 with
    | some c => (some c, false)
    | none =>
        match findServerForTool toolName discovered with
        | some serverUrl =>
            match createConfigFromUrl w serverUrl with
            | some c => (some c, true)
            | none => (none, false)
        | none => (none, false)
  match step2.1 with
  | some c =>
      { config := some (.config c), fromUrl := step1.2,
        fromConversation := step2.2, fromMcpRegistry := false,
        lookedUpRegistry := false }
  | none =>
      match lookupFromMcpRegistry w.catalog toolName with
      | some c =>
          { config := some c, fromUrl := false, fromConversation := false,
            fromMcpRegistry := true, lookedUpRegistry := true }
      | none =>
          { config := none, fromUrl := false, fromConversation := false,
            fromMcpRegistry := false, lookedUpRegistry := true }

/-- An element of the `tools` array handed to the gateway: the resolved
form of a proper descriptor, or the junk object produced when
`resolveToolConfig` is applied to the note *string* — `\x7b ...string \x7d`
spreads into index-keyed character fields (so `type` and `server_url` are
`undefined`), and the final spread installs just the caller headers. -/
inductive ResolvedTool where
  | conf : ResolvedConfig → ResolvedTool
  | junk : String → List (String × Option String) → ResolvedTool

/-- `resolveToolConfig(toolConfig, toolHeaders)` applied to whatever the
chain produced (descriptor or note string). -/
def resolveFound (fc : FoundConfig) (toolHeaders : List (String × String))
    (env : Env) : ResolvedTool :=
  match fc with
  | .config c => .conf (resolveToolConfig c toolHeaders env)
  | .noteStr s => .junk s (toolHeaders.map (fun p => (p.1, some p.2)))

/-- `tool.type === 'mcp'` on a gateway tool (`undefined` on the junk
object). -/
def ResolvedTool.isMcp : ResolvedTool → Bool
  | .conf c => c.type = "mcp"
  | .junk _ _ => false

/-- `tool.server_url` (`undefined`, read as `""`, on the junk object —
only ever accessed behind an `isMcp` filter or a truthiness guard). -/
def ResolvedTool.serverUrlD : ResolvedTool → String
  | .conf c => c.server_url
  | .junk _ _ => ""

/-- Result of the resolution loop: abort at the first unresolved name, or
the resolved tools in request order.  (The missing-credential scan in the
loop only logs warnings and never blocks the batch.) -/
inductive LoopResult where
  | notFound : String → LoopResult
  | ok : List ResolvedTool → LoopResult

/-- The `for (const toolName of toolNames)` loop of `handleToolExecution`. -/
def resolveLoop (w : World) (discovered : List (String × List String))
    (uth : List (String × List (String × String))) :
    List String → LoopResult
  | [] => .ok []
  | n :: rest =>
      match (resolveName w discovered n).config with
      | none => .notFound n
      | some fc =>
          let resolved := resolveFound fc (headersForTool uth n) w.env
          match resolveLoop w discovered uth rest with
          | .notFound m => .notFound m
          | .ok tools => .ok (resolved :: tools)

/-- `Object.keys(toolsRegistry)` as a JSON array. -/
def availableToolsJson : Json :=
  .arr ((toolsRegistry.map Prod.fst).map .str)

/-- The 400 response for a missing `tools` parameter. -/
def missingToolsResponse : Json :=
  .obj [("error", .bool true), ("status", .num 400),
        ("response", .obj
          [("error", .str "tools parameter is required"),
           ("example", .str "/api/tools?tools=parallel_web_search&q=what's the weather in San Francisco"),
           ("availableTools", availableToolsJson)])]

/-- The 400 response for a missing query. -/
def missingQueryResponse : Json :=
  .obj [("error", .bool true), ("status", .num 400),
        ("response", .obj
          [("error", .str "Query parameter \"q\" is required for execute mode"),
           ("example", .str "/api/tools?tools=parallel_web_search&q=what's the weather in San Francisco"),
           ("availableTools", availableToolsJson)])]

def hexDigitUpper (n : Nat) : Char :=
  if n < 10 then Char.ofNat (48 + n) else Char.ofNat (55 + n)

/-- Characters `encodeURIComponent` leaves unescaped. -/
def uriUnreserved (c : Char) : Bool :=
  isAsciiAlphanum c ||
    (c = '-' || c = '_' || c = '.' || c = '!' || c = '~' || c = '*' ||
     c = '\'' || c = '(' || c = ')')

/-- UTF-8 bytes of one code point. -/
def utf8Bytes (c : Char) : List Nat :=
  let n := c.toNat
  if n < 128 then [n]
  else if n < 2048 then [192 + n / 64, 128 + n % 64]
  else if n < 65536 then [224 + n / 4096, 128 + (n / 64) % 64, 128 + n % 64]
  else [240 + n / 262144, 128 + (n / 4096) % 64, 128 + (n / 64) % 64,
        128 + n % 64]

/-- The `encodeURIComponent` builtin. -/
def encodeURIComponent (s : String) : String :=
  ⟨s.data.foldr
    (fun c acc =>
      if uriUnreserved c then c :: acc
      else (utf8Bytes c).foldr
        (fun b acc2 => '%' :: hexDigitUpper (b / 16) :: hexDigitUpper (b % 16) :: acc2)
        acc)
    []⟩

/-- The 404 not-found response naming the unresolved tool. -/
def notFoundResponse (toolName : String) : Json :=
  .obj [("error", .bool true), ("status", .num 404),
        ("response", .obj
          [("error", .str ("Tool '" ++ toolName ++
             "' not found in local registry, MCP registry, or is not a valid URL")),
           ("availableTools", availableToolsJson),
           ("suggestion", .str ("Try searching the registry: /api/registry?search="
             ++ encodeURIComponent toolName ++ ", or provide a valid MCP server URL"))])]

/-- The cached-schema-driven query rewrite applied before the first gateway
call for single-tool batches whose query mentions "run " or "execute ". -/
def modifiedQueryFor (w : World) (toolNames : List String) (query : String)
    (tools : List ResolvedTool) : String :=
  if toolNames.length = 1 &&
      (containsStr (jsToLower query) "run " ||
       containsStr (jsToLower query) "execute ") then
    let toolName := toolNames.headD ""
    match tools.head? with
    | some t0 =>
        if t0.serverUrlD ≠ "" then
          match getCachedToolSchema w toolName t0.serverUrlD with
          | some toolSchema =>
              let paramNames := toolSchema.params.getD []
              if paramNames.length = 0 then
                "Use the " ++ toolName ++ " tool without any parameters"
              else
                "Use the " ++ toolName ++ " tool" ++
                  (if paramNames.contains "topic" then ""
                   else " without specifying a topic")
          | none => "Use the " ++ toolName ++ " tool with default settings"
        else query
    | none => query
  else query

/-- The post-retry error classification of `handleToolExecution` (performed
on the *original* error message). -/
def classifyError (e : String) (tools : List ResolvedTool) : Json :=
  if (containsStr e "500" || containsStr e "400") &&
      tools.any (fun t => t.isMcp) then
    let mcpServerUrls := (tools.filter (fun t => t.isMcp)).map
      (fun t => t.serverUrlD)
    .obj [("error", .bool true), ("status", .num 500),
          ("response", .obj
            [("error", .str (if containsStr e "400" then
                "MCP Tool Schema Validation Failed"
              else "MCP Server Execution Failed")),
             ("details", .str e),
             ("mcp_servers", .arr (mcpServerUrls.map .str)),
             ("suggestion", .str (if containsStr e "400" then
                "The MCP tool was found but there's a parameter schema mismatch. This usually means the tool expects different parameters than what was provided."
              else
                "This appears to be an issue with Groq's Remote MCP API when executing tools from this server. The server discovery worked, but execution failed.")),
             ("troubleshooting", .arr
               ((if containsStr e "400" then
                   ["Tool schema validation failed - the tool parameters don't match the expected schema",
                    "This could be due to incomplete schema information during tool discovery",
                    "Try using the tool with explicit parameters if you know the expected format",
                    "The MCP server may need to provide more detailed schema information"]
                 else
                   ["The MCP server is accessible and tools were discovered successfully",
                    "This may be a temporary issue with Groq's Remote MCP implementation",
                    "Try again in a few moments",
                    "Use the generated curl command to test the API directly",
                    "Consider trying a different MCP server if the issue persists"]).map .str))])]
  else
    .obj [("error", .bool true),
          ("status", .num (if containsStr e "401" then 401 else 500)),
          ("response", .str e)]

/-- The result of `handleToolExecution`, together with the trace of
Upstream Gateway (`groqResponses`) calls it issued: `(input, tools)` per
call, in order. -/
structure ExecResult where
  result : Json
  gwCalls : List (String × List ResolvedTool)

/-- The `catch` block of `handleToolExecution`: retry once with the
simplified query on the schema-validation signature for single-tool
batches, otherwise (and when the retry fails too) classify the original
error. -/
def execOnError (w : World) (toolNames : List String) (modifiedQuery : String)
    (tools : List ResolvedTool) (e : String) : ExecResult :=
  if containsStr e "did not match schema" && toolNames.length = 1 then
    let simpleQuery := "Use the " ++ toolNames.headD "" ++ " tool"
    match w.gw 1 with
    | .ok r =>
        { result := .obj [("error", .bool false), ("response", r)],
          gwCalls := [(modifiedQuery, tools), (simpleQuery, tools)] }
    | .error _ =>
        { result := classifyError e tools,
          gwCalls := [(modifiedQuery, tools), (simpleQuery, tools)] }
  else
    { result := classifyError e tools,
      gwCalls := [(modifiedQuery, tools)] }

def execAfterResolve (w : World) (toolNames : List String) (query : String)
    (tools : List ResolvedTool) : ExecResult :=
  let modifiedQuery := modifiedQueryFor w toolNames query tools
  match w.gw 0 with
  | .ok r =>
      { result := .obj [("error", .bool false), ("response", r)],
        gwCalls := [(modifiedQuery, tools)] }
  | .error e => execOnError w toolNames modifiedQuery tools e

/-- `handleToolExecution(toolsParam, query, model, apiKey, userToolHeaders,
conversationHistory)` from `src/backend/handlers.js` (current version):
validate, resolve every name through the chain (all-or-nothing), then run
the gateway/retry phase. -/
def handleToolExecution (w : World) (toolsParam query : String)
    (uth : List (String × List (String × String)))
    (discovered : List (String × List String)) : ExecResult :=
  if toolsParam = "" then { result := missingToolsResponse, gwCalls := [] }
  else if query = "" then { result := missingQueryResponse, gwCalls := [] }
  else
    match resolveLoop w discovered uth ((jsSplit toolsParam ',').map jsTrim) with
    | .notFound n => { result := notFoundResponse n, gwCalls := [] }
    | .ok tools =>
        execAfterResolve w ((jsSplit toolsParam ',').map jsTrim) query tools

/-- The concrete world used by the C6 witness. -/
def cexUrlWorld : World :=
  { parseUrl := fun s =>
      if s = "https://example.com/mcp" then
        some { protocol := "https:", hostname := "example.com" }
      else none
    catalog := none
    env := fun _ => none
    gw := fun _ => .error "unused"
    cache := [] }

/-- The concrete world used by the C3 witness and the all-or-nothing
support theorems: no URL parses, the public catalog is unreachable, the
gateway always fails generically. -/
def cexExecWorld : World :=
  { parseUrl := fun _ => none
    catalog := none
    env := fun _ => none
    gw := fun _ => .error "Groq API error: 502 Bad Gateway - upstream hiccup"
    cache := [] }

/-- A catalog entry advertising no remote at all: per the source's own
comment, such a server "requires local installation" and its lookup is
meant to return `null`. -/
def cexLocalOnlyServer : ServerEntry :=
  { name := "filesystem_local", description := some "local stdio server",
    version := none, repositoryUrl := none, remotes := none }

/-- The world exhibiting the C8 divergence: the public catalog holds only
the local-install-only entry, no URL parses, and the gateway succeeds. -/
def cexNoteWorld : World :=
  { parseUrl := fun _ => none
    catalog := some [cexLocalOnlyServer]
    env := fun _ => none
    gw := fun _ => .ok (.obj [("id", .str "resp_1")])
    cache := [] }

/-! ## Browser-side curl generation (`mcpNavApp.js`) — `generateCurlFromResult`

The execution result arrives at the frontend as JSON, so every header value
in `result.tools_config` is a plain string. -/

/-- One entry of `result.tools_config` as the frontend sees it. -/
structure FeTool where
  type : String
  server_label : String
  server_url : String
  headers : Option (List (String × String))
  require_approval : String

/-- The part of the execution result `generateCurlFromResult` reads. -/
structure FeResult where
  selected_tools : List Json
  execution_query : Option String
  tools_config : List FeTool

/-- The credential-header heuristic: the lowercased name contains "api",
"key" or "auth". -/
def credHeaderMatch (key : String) : Bool :=
  containsStr (jsToLower key) "api" || containsStr (jsToLower key) "key" ||
    containsStr (jsToLower key) "auth"

/-- The placeholder chosen for a recognized credential header. -/
def credPlaceholder (key : String) : String :=
  if key = "x-api-key" then "<PARALLEL_API_KEY>"
  else if containsStr (jsToLower key) "github" then "<GITHUB_TOKEN>"
  else if containsStr (jsToLower key) "hugging" then "<HUGGINGFACE_TOKEN>"
  else "<" ++ upperUnderscore key ++ ">"

/-- The per-header sanitization step of `generateCurlFromResult`: only
string values *longer than 10 characters* are even considered, and among
those only credential-heuristic names are replaced. -/
def sanitizeHeaderVal (key value : String) : String :=
  if value.length > 10 then
    if credHeaderMatch key then credPlaceholder key else value
  else value

/-- The sanitized copy of one tool config. -/
def sanitizeTool (t : FeTool) : FeTool :=
  match t.headers with
  | some hs =>
      { t with headers := some (hs.map (fun p => (p.1, sanitizeHeaderVal p.1 p.2))) }
  | none => t

def joinSep (sep : String) : List String → String
  | [] => ""
  | [x] => x
  | x :: rest => x ++ sep ++ joinSep sep rest

/-- JSON string escaping (over the characters this system produces). -/
def jsonEscape (s : String) : String :=
  ⟨s.data.foldr
    (fun c acc =>
      if c = '\\' then '\\' :: '\\' :: acc
      else if c = '"' then '\\' :: '"' :: acc
      else if c = '\n' then '\\' :: 'n' :: acc
      else if c = '\t' then '\\' :: 't' :: acc
      else if c = '\r' then '\\' :: 'r' :: acc
      else c :: acc)
    []⟩

/-- `6 * d` spaces: `JSON.stringify(…, null, 6)` indentation at depth `d`. -/
def ind6 (d : Nat) : String := ⟨List.replicate (6 * d) ' '⟩

def stringifyStrPair (k v : String) : String :=
  "\"" ++ jsonEscape k ++ "\": \"" ++ jsonEscape v ++ "\""

/-- `JSON.stringify` of a headers object at depth `d`. -/
def stringifyHeadersObj (d : Nat) (hs : List (String × String)) : String :=
  match hs with
  | [] => "\x7b\x7d"
  | _ =>
      "\x7b\n" ++
        joinSep ",\n" (hs.map (fun p => ind6 (d + 1) ++ stringifyStrPair p.1 p.2))
        ++ "\n" ++ ind6 d ++ "\x7d"

/-- `JSON.stringify` of one tool config object at depth `d`. -/
def stringifyFeTool (d : Nat) (t : FeTool) : String :=
  let fields : List String :=
    [stringifyStrPair "type" t.type,
     stringifyStrPair "server_label" t.server_label,
     stringifyStrPair "server_url" t.server_url] ++
    (match t.headers with
     | some hs => ["\"headers\": " ++ stringifyHeadersObj (d + 1) hs]
     | none => []) ++
    [stringifyStrPair "require_approval" t.require_approval]
  "\x7b\n" ++ joinSep ",\n" (fields.map (fun f => ind6 (d + 1) ++ f)) ++
    "\n" ++ ind6 d ++ "\x7d"

/-- `JSON.stringify(sanitizedConfig, null, 6)` for the tools array. -/
def stringifyToolsArr (tools : List FeTool) : String :=
  match tools with
  | [] => "[]"
  | _ =>
      "[\n" ++ joinSep ",\n" (tools.map (fun t => ind6 1 ++ stringifyFeTool 1 t))
        ++ "\n]"

/-- The post-processing that indents every line but the first by six
spaces. -/
def indentTail6 (s : String) : String :=
  match jsSplit s '\n' with
  | [] => s
  | h :: rest => joinSep "\n" (h :: rest.map (fun l => "      " ++ l))

/-- The hard-coded placeholder tools JSON used when no actual config is
available. -/
def fallbackToolsJson : String :=
  "[\n        \x7b\n          \"type\": \"mcp\",\n          \"server_label\": \"tool_name\",\n          \"server_url\": \"tool_url\",\n          \"headers\": \x7b\x7d,\n          \"require_approval\": \"never\"\n        \x7d\n      ]"

/-- `generateCurlFromResult(result)` from the browser app: sanitize the
tool configs, stringify them, and embed them in the Responses-API curl
template. -/
def generateCurlFromResult (selectedModel : String) (r : FeResult) : String :=
  if r.selected_tools.length = 0 then ""
  else
    let query :=
      match r.execution_query with
      | some q => if q ≠ "" then q else "Your query here"
      | none => "Your query here"
    let toolsJson :=
      if r.tools_config.length > 0 then
        indentTail6 (stringifyToolsArr (r.tools_config.map sanitizeTool))
      else fallbackToolsJson
    "curl -X POST \"https://api.groq.com/openai/v1/responses\" \\\n  -H \"Authorization: Bearer $GROQ_API_KEY\" \\\n  -H \"Content-Type: application/json\" \\\n  -d '\x7b\n    \"model\": \"" ++
      selectedModel ++ "\",\n    \"input\": \"" ++ query ++
      "\",\n    \"tools\": " ++ toolsJson ++ "\n  \x7d'"

/-- The execution result used in the C2 counterexample: a credential-named
header (`x-auth` contains "auth") whose resolved value has exactly 10
characters. -/
def cexCurlResult : FeResult :=
  { selected_tools := [.obj [("name", .str "custom")]]
    execution_query := some "call the tool"
    tools_config :=
      [{ type := "mcp", server_label := "custom",
         server_url := "https://x.example/mcp",
         headers := some [("x-auth", "secret1234")],
         require_approval := "never" }] }

/-! ## Heap-level model of `resolveToolConfig` (claim C9)

The value-level `resolveToolConfig` above cannot even express mutation, so
the purity claim is re-verified against a heap model with JavaScript
reference semantics: objects live in a heap, `{ ...toolConfig }` copies the
field list but *shares* the headers object by reference, and every write
the source performs targets a freshly allocated object.  Allocation appends
to the heap, so non-mutation is the statement that the pre-call heap is a
prefix of the post-call heap. -/

/-- A JavaScript value as stored in an object field: `undefined`, a string,
a credential thunk, or a reference to another heap object. -/
inductive JsVal where
  | undef
  | str : String → JsVal
  | fn : (Env → Option String) → JsVal
  | ref : Nat → JsVal

/-- A JavaScript object: insertion-ordered fields. -/
abbrev JsObj := List (String × JsVal)

/-- The object heap; an object's identity is its index. -/
structure Heap where
  objs : List JsObj

/-- Dereference (a dangling reference reads as the empty object; the
theorems below only use valid references). -/
def Heap.getObj (h : Heap) (i : Nat) : JsObj :=
  (h.objs.get? i).getD []

/-- Allocation: append a fresh object, return its reference. -/
def Heap.alloc (h : Heap) (o : JsObj) : Heap × Nat :=
  (⟨h.objs ++ [o]⟩, h.objs.length)

/-- Resolution of one header-template value: a truthy caller override wins,
a function value is invoked against the environment, anything else is kept. -/
def resolveHdrEntryVal (uh : List (String × String)) (env : Env)
    (k : String) (v : JsVal) : JsVal :=
  match alookup uh k with
  | some u =>
      if u ≠ "" then .str u
      else
        match v with
        | .fn f => (match f env with | some s => JsVal.str s | none => .undef)
        | w => w
  | none =>
      match v with
      | .fn f => (match f env with | some s => JsVal.str s | none => .undef)
      | w => w

/-- The heap reference held by the object's `headers` field, when the field
holds an object reference (`if (resolved.headers)` with an object value). -/
def headersRefOf (o : JsObj) : Option Nat :=
  match alookup o "headers" with
  | some (.ref i) => some i
  | _ => none

/-- The shallow copy of the descriptor minus `_meta`/`_registry`. -/
def baseOf (h : Heap) (cfgRef : Nat) : JsObj :=
  objDelete (objDelete (h.getObj cfgRef) "_meta") "_registry"

/-- The `resolvedHeaders` object built by the resolution loop. -/
def rhOf (h : Heap) (hid : Nat) (uh : List (String × String)) (env : Env) :
    JsObj :=
  (h.getObj hid).map (fun p => (p.1, resolveHdrEntryVal uh env p.1 p.2))

/-- The caller headers as object fields. -/
def userValsOf (uh : List (String × String)) : JsObj :=
  uh.map (fun q => (q.1, JsVal.str q.2))

/-- `resolveToolConfig` on the heap: shallow-copy the descriptor object,
delete `_meta`/`_registry` on the copy, build the resolved-headers object,
build the final spread object, and point the *copy*'s `headers` field at
it.  The caller's descriptor object and its headers object are never
written.  (A config whose `headers` field is not an object skips the
resolution block, and the final spread then copies just the caller
headers.) -/
def resolveToolConfigHeap (h : Heap) (cfgRef : Nat)
    (uh : List (String × String)) (env : Env) : Heap × Nat :=
  match headersRefOf (h.getObj cfgRef) with
  | some hid =>
      let rh := rhOf h hid uh env
      let merged := objSpread rh (userValsOf uh)
      let (h1, _rid) := h.alloc rh
      let (h2, mid) := h1.alloc merged
      let fields := objSet (baseOf h cfgRef) "headers" (.ref mid)
      let (h3, outRef) := h2.alloc fields
      (h3, outRef)
  | none =>
      let merged := userValsOf uh
      let (h1, mid) := h.alloc merged
      let fields := objSet (baseOf h cfgRef) "headers" (.ref mid)
      let (h2, outRef) := h1.alloc fields
      (h2, outRef)

/-- Read back the materialized headers object of a resolution result. -/
def readHeaders (h : Heap) (r : Nat) : Option JsObj :=
  match alookup (h.getObj r) "headers" with
  | some (.ref i) => some (h.getObj i)
  | _ => none

/-- The headers object a resolution materializes, computed directly from
the pre-call heap. -/
def mergedHeadersOf (h : Heap) (cfgRef : Nat) (uh : List (String × String))
    (env : Env) : JsObj :=
  match headersRefOf (h.getObj cfgRef) with
  | some hid => objSpread (rhOf h hid uh env) (userValsOf uh)
  | none => userValsOf uh

/-- Any `headers` reference of the descriptor points inside the heap. -/
def headersRefOk (o : JsObj) (n : Nat) : Bool :=
  match headersRefOf o with
  | some i => i < n
  | none => true

/-- The concrete heap used by the C9 witness: the github-style descriptor
at index 1, its headers object (holding an environment-backed thunk) at
index 0, plus a `_meta` field. -/
def cexHeap : Heap :=
  ⟨[[("Authorization",
      .fn (fun env => some ("Bearer " ++ jsInterp (env "GITHUB_TOKEN"))))],
    [("type", .str "mcp"), ("server_label", .str "GitHub"),
     ("headers", .ref 0), ("_meta", .str "docs")]]⟩

/-! ## Theorems -/

set_option maxRecDepth 100000

/-! ### Lookup lemmas for the spread -/

@[simp] theorem alookup_nil {α : Type} (k : String) :
    alookup ([] : List (String × α)) k = none := rfl

@[simp] theorem alookup_cons {α : Type} (k₀ : String) (v₀ : α)
    (rest : List (String × α)) (k : String) :
    alookup ((k₀, v₀) :: rest) k = if k₀ = k then some v₀ else alookup rest k :=
  rfl

theorem alookup_append {α : Type} (l₁ l₂ : List (String × α)) (k : String) :
    alookup (l₁ ++ l₂) k =
      (match alookup l₁ k with
       | some v => some v
       | none => alookup l₂ k) := by
  induction l₁ with
  | nil => simp [alookup]
  | cons hd tl ih =>
      obtain ⟨k₀, v₀⟩ := hd
      by_cases h : k₀ = k
      · simp [alookup, h]
      · simp [alookup, h, ih]

theorem alookup_mapWithKey {α β : Type} (l : List (String × α))
    (f : String → α → β) (k : String) :
    alookup (l.map (fun p => (p.1, f p.1 p.2))) k = (alookup l k).map (f k) := by
  induction l with
  | nil => simp [alookup]
  | cons hd tl ih =>
      obtain ⟨k₀, v₀⟩ := hd
      by_cases h : k₀ = k
      · subst h; simp [alookup]
      · simp [alookup, h, ih]

theorem alookup_filter_notin {α : Type} (a b : List (String × α)) (k : String)
    (ha : alookup a k = none) :
    alookup (b.filter (fun p => (alookup a p.1).isNone)) k = alookup b k := by
  induction b with
  | nil => rfl
  | cons hd tl ih =>
      obtain ⟨k₀, v₀⟩ := hd
      rw [List.filter_cons]
      by_cases h : k₀ = k
      · subst h
        simp [ha, alookup, ih]
      · by_cases hkeep : (alookup a k₀).isNone = true
        · simp [hkeep, alookup, h, ih]
        · simp [hkeep, alookup, h, ih]

/-- Looking a key up in `{...a, ...b}` returns `b`'s value whenever `b`
binds the key. -/
theorem alookup_objSpread_right {α : Type} (a b : List (String × α))
    (k : String) (v : α) (hb : alookup b k = some v) :
    alookup (objSpread a b) k = some v := by
  unfold objSpread
  rw [alookup_append]
  rw [alookup_mapWithKey a (fun k₀ v₀ => (alookup b k₀).getD v₀) k]
  cases ha : alookup a k with
  | some w => simp [hb]
  | none =>
      simp [alookup_filter_notin a b k ha, hb]

/-- C1.  For every tool descriptor, caller-supplied header map and
environment: any header name the caller binds resolves to exactly the
caller's value — never the descriptor's literal default and never the
environment-backed thunk's output.  (In the source this holds because the
final `{...resolved.headers, ...userHeaders}` spread re-applies every caller
entry.) -/
theorem caller_header_override_wins (cfg : ToolConfig)
    (userHeaders : List (String × String)) (env : Env) (k v : String)
    (hk : alookup userHeaders k = some v) :
    alookup (resolveToolConfig cfg userHeaders env).headers k = some (some v) := by
  unfold resolveToolConfig
  have huser : alookup (userHeaders.map (fun p => (p.1, some p.2))) k
      = some (some v) := by
    have := alookup_mapWithKey userHeaders (fun _ x => some x) k
    simpa [hk] using this
  cases hcfg : cfg.headers with
  | none => simpa [hcfg] using huser
  | some hs =>
      simp only [hcfg]
      exact alookup_objSpread_right _ _ k (some v) huser

/-- Witness for C1 at a concrete input: overriding the github
`Authorization` header yields the caller's value even though the descriptor
carries an environment-backed thunk for the same name. -/
theorem caller_header_override_wins_witness :
    alookup [("Authorization", "Bearer MINE")] "Authorization" = some "Bearer MINE" ∧
    alookup (resolveToolConfig
        { type := "mcp", server_label := "GitHub",
          server_url := "https://api.githubcopilot.com/mcp/",
          headers := some [("Authorization",
            .thunk (fun env => some ("Bearer " ++ jsInterp (env "GITHUB_TOKEN"))))],
          require_approval := "never", hasMeta := true, registry := none }
        [("Authorization", "Bearer MINE")]
        (fun _ => some "ENVTOKEN")).headers "Authorization"
      = some (some "Bearer MINE") :=
  ⟨rfl, caller_header_override_wins _ [("Authorization", "Bearer MINE")]
    (fun _ => some "ENVTOKEN") "Authorization" "Bearer MINE" rfl⟩

/-- Counterexample to C5.  On a catalog whose first entry is a
local-install-only server named "foo" and whose second entry is an eligible
server with the same name, the spec's filter-first procedure selects the
eligible entry, but the code exact-matches the ineligible first entry and —
its `configMap[configKey].note` guard misfiring — returns the truthy note
*string* instead of that entry's descriptor (or `null`): the Public
Registry Client does *not* filter before matching. -/
theorem registry_filters_after_matching_counterexample :
    specFilterFirstCandidate [cexServerNoRemote, cexServerRemote] "foo"
        = some cexServerRemote ∧
    ((cexServerRemote.remotes.getD []).length > 0 ∧
      cexServerRemote.name = "foo") ∧
    lookupFromMcpRegistry (some [cexServerNoRemote, cexServerRemote]) "foo"
      = some (.noteStr localInstallNoteText) := by
  refine ⟨by decide, ⟨by decide, by decide⟩, ?_⟩
  rfl

/-- Per-entry form of the amended C5 equivalence: accepting or rejecting a
matched catalog entry depends only on that entry's chosen remote. -/
theorem lookup_body_eq_amended_body (s : ServerEntry) :
    (match generateConfigFromServer s with
     | GenConfig.note text => some (FoundConfig.noteStr text)
     | GenConfig.config key cfg =>
         if key = "" then none else some (FoundConfig.config cfg))
      = (match chooseRemote s with
         | none => some (FoundConfig.noteStr localInstallNoteText)
         | some remote =>
             if remote.url = "" then
               some (FoundConfig.noteStr localInstallNoteText)
             else if safeNameOf s.name = "" then none
             else some (FoundConfig.config
               { type := "mcp"
                 server_label := s.name
                 server_url := remote.url
                 headers := some
                   (match remote.headers with
                    | some hs => remoteHeadersToConfig hs
                    | none => [])
                 require_approval := "never"
                 hasMeta := false
                 registry := some
                   { name := s.name, description := s.description,
                     version := s.version, repository := s.repositoryUrl } })) := by
  unfold generateConfigFromServer
  cases chooseRemote s with
  | none => rfl
  | some remote =>
      by_cases hu : remote.url = ""
      · simp [hu]
      · simp [hu]

/-- C5 (amended), proved: on every catalog reply and requested name, the
Public Registry Client behaves exactly as the amended description —
matching (exact, then fuzzy) runs over the full catalog including
local-install-only entries, remote eligibility is decided only for the
already-matched entry, and a local-install-only match yields the truthy
note string rather than falling back to later candidates. -/
theorem lookupFromMcpRegistry_eq_amended (servers : List ServerEntry)
    (toolName : String) :
    lookupFromMcpRegistry (some servers) toolName
      = amendedRegistryLookup servers toolName := by
  show (match registryCandidate servers toolName with
        | none => none
        | some s =>
            match generateConfigFromServer s with
            | GenConfig.note text => some (FoundConfig.noteStr text)
            | GenConfig.config key cfg =>
                if key = "" then none else some (FoundConfig.config cfg))
      = amendedRegistryLookup servers toolName
  unfold amendedRegistryLookup
  cases registryCandidate servers toolName with
  | none => rfl
  | some s => exact lookup_body_eq_amended_body s

/-! ### C10: secret headers from the public registry are never resolved -/

theorem alookup_replaceAt {α : Type} (o : List (String × α)) (k k' : String)
    (v : α) :
    alookup (o.map (fun p => if p.1 = k' then (k', v) else p)) k
      = if k' = k then (if (alookup o k).isSome then some v else none)
        else alookup o k := by
  induction o with
  | nil => by_cases h : k' = k <;> simp [h]
  | cons hd tl ih =>
      obtain ⟨k₀, v₀⟩ := hd
      by_cases h0 : k₀ = k'
      · subst h0
        by_cases h : k₀ = k
        · subst h; simp [ih]
        · simp [h, ih]
      · by_cases h : k₀ = k
        · subst h
          have hne : ¬(k' = k₀) := fun hc => h0 hc.symm
          simp [h0, hne]
        · simp [h0, h, ih]

theorem alookup_objSet_self {α : Type} (o : List (String × α)) (k : String)
    (v : α) : alookup (objSet o k v) k = some v := by
  unfold objSet
  by_cases hmem : (alookup o k).isSome = true
  · rw [if_pos hmem, alookup_replaceAt, if_pos rfl, if_pos hmem]
  · rw [if_neg hmem, alookup_append]
    cases ho : alookup o k with
    | some w => exact absurd (by rw [ho]; rfl) hmem
    | none => simp

theorem alookup_objSet_other {α : Type} (o : List (String × α)) (k k' : String)
    (v : α) (hne : k' ≠ k) : alookup (objSet o k' v) k = alookup o k := by
  unfold objSet
  by_cases hmem : (alookup o k').isSome = true
  · rw [if_pos hmem, alookup_replaceAt, if_neg hne]
  · rw [if_neg hmem, alookup_append]
    cases ho : alookup o k with
    | some w => simp
    | none => simp [hne]

/-- A header whose name is absent from the remainder of the loop is left
untouched by the remaining iterations. -/
theorem remoteHeaders_foldl_untouched (hs : List RemoteHeader)
    (acc : List (String × HVal)) (n : String)
    (habs : ∀ x ∈ hs, x.name ≠ n) :
    alookup (hs.foldl
      (fun acc h =>
        if h.isSecret then objSet acc h.name (.lit (secretThunkSource h.name))
        else
          match h.value with
          | some v => if v ≠ "" then objSet acc h.name (.lit v) else acc
          | none => acc) acc) n = alookup acc n := by
  induction hs generalizing acc with
  | nil => rfl
  | cons hd tl ih =>
      have hhd : hd.name ≠ n := habs hd (List.mem_cons_self hd tl)
      have htl : ∀ x ∈ tl, x.name ≠ n := fun x hx =>
        habs x (List.mem_cons_of_mem hd hx)
      simp only [List.foldl_cons]
      rw [ih _ htl]
      by_cases hsec : hd.isSecret
      · simp [hsec, alookup_objSet_other _ _ _ _ hhd]
      · cases hv : hd.value with
        | none => simp [hsec]
        | some v =>
            by_cases hv' : v ≠ ""
            · simp [hsec, hv', alookup_objSet_other _ _ _ _ hhd]
            · simp [hsec, hv']

/-- Within `remoteHeadersToConfig`, a secret header (with a name unique in
the remote's header list) is stored as the literal arrow-function source
text. -/
theorem remoteHeadersToConfig_secret (hs : List RemoteHeader)
    (h : RemoteHeader) (hmem : h ∈ hs) (hsec : h.isSecret = true)
    (hnd : (hs.map (fun x => x.name)).Nodup) :
    alookup (remoteHeadersToConfig hs) h.name
      = some (.lit (secretThunkSource h.name)) := by
  unfold remoteHeadersToConfig
  have main : ∀ (l : List RemoteHeader) (acc : List (String × HVal)),
      h ∈ l → (l.map (fun x => x.name)).Nodup →
      alookup (l.foldl
        (fun acc h =>
          if h.isSecret then objSet acc h.name (.lit (secretThunkSource h.name))
          else
            match h.value with
            | some v => if v ≠ "" then objSet acc h.name (.lit v) else acc
            | none => acc) acc) h.name
        = some (.lit (secretThunkSource h.name)) := by
    intro l
    induction l with
    | nil => intro acc hm _; exact absurd hm (List.not_mem_nil h)
    | cons hd tl ih =>
        intro acc hm hnd'
        simp only [List.map_cons, List.nodup_cons] at hnd'
        rcases List.mem_cons.mp hm with heq | htl
        · have hsec' : hd.isSecret = true := heq ▸ hsec
          have hname : h.name = hd.name := by rw [heq]
          have habs : ∀ x ∈ tl, x.name ≠ hd.name := by
            intro x hx hc
            exact hnd'.1 (hc ▸ List.mem_map_of_mem (fun y => y.name) hx)
          rw [hname]
          simp only [List.foldl_cons, hsec', if_true]
          rw [remoteHeaders_foldl_untouched tl _ _ habs]
          exact alookup_objSet_self _ _ _
        · simp only [List.foldl_cons]
          exact ih _ htl hnd'.2
  exact main hs [] hmem hnd

/-- `objSpread a [] = a`: spreading an empty caller-header map changes
nothing. -/
theorem objSpread_nil {α : Type} (a : List (String × α)) :
    objSpread a [] = a := by
  unfold objSpread
  simp [alookup]

/-- C10.  For every public-registry server entry whose chosen remote
declares a secret header, the synthesized descriptor stores the JavaScript
arrow-function *source text* as a plain string header value, and the
Credential Resolver — which only invokes function-typed values — passes that
source text through verbatim as the resolved header value for every
environment: the environment variable is never read. -/
theorem public_registry_secret_header_never_resolved (s : ServerEntry)
    (remote : Remote) (hs : List RemoteHeader) (h : RemoteHeader) (env : Env)
    (hrem : chooseRemote s = some remote) (hurl : remote.url ≠ "")
    (hhs : remote.headers = some hs) (hmem : h ∈ hs)
    (hsec : h.isSecret = true)
    (hnd : (hs.map (fun x => x.name)).Nodup) :
    ∃ key cfg, generateConfigFromServer s = .config key cfg ∧
      alookup (cfg.headers.getD []) h.name
        = some (.lit (secretThunkSource h.name)) ∧
      alookup (resolveToolConfig cfg [] env).headers h.name
        = some (some (secretThunkSource h.name)) := by
  have base := remoteHeadersToConfig_secret hs h hmem hsec hnd
  refine ⟨safeNameOf s.name,
    { type := "mcp"
      server_label := s.name
      server_url := remote.url
      headers := some (remoteHeadersToConfig hs)
      require_approval := "never"
      hasMeta := false
      registry := some
        { name := s.name, description := s.description,
          version := s.version, repository := s.repositoryUrl } },
    ?_, ?_, ?_⟩
  · simp only [generateConfigFromServer, hrem, hhs]
    rw [if_neg hurl]
  · simpa using base
  · unfold resolveToolConfig
    simp only [List.map_nil, objSpread_nil]
    rw [alookup_mapWithKey (remoteHeadersToConfig hs)
        (fun k v => resolveHeaderEntry [] env k v) h.name, base]
    rfl

/-- Witness for C10 at a concrete input. -/
theorem public_registry_secret_header_never_resolved_witness :
    ∃ key cfg,
      generateConfigFromServer
        { name := "acme/search", description := none, version := none,
          repositoryUrl := none,
          remotes := some [{ type := "streamable-http",
                             url := "https://acme.example/mcp",
                             headers := some [{ name := "acme-api-key",
                                                isSecret := true,
                                                value := none }] }] }
        = .config key cfg ∧
      alookup (cfg.headers.getD []) "acme-api-key"
        = some (.lit "() => Deno.env.get(\"ACME_API_KEY\")") ∧
      alookup (resolveToolConfig cfg []
          (fun v => if v = "ACME_API_KEY" then some "realsecret" else none)).headers
          "acme-api-key"
        = some (some "() => Deno.env.get(\"ACME_API_KEY\")") := by
  have := public_registry_secret_header_never_resolved
    { name := "acme/search", description := none, version := none,
      repositoryUrl := none,
      remotes := some [{ type := "streamable-http",
                         url := "https://acme.example/mcp",
                         headers := some [{ name := "acme-api-key",
                                            isSecret := true,
                                            value := none }] }] }
    { type := "streamable-http", url := "https://acme.example/mcp",
      headers := some [{ name := "acme-api-key", isSecret := true,
                         value := none }] }
    [{ name := "acme-api-key", isSecret := true, value := none }]
    { name := "acme-api-key", isSecret := true, value := none }
    (fun v => if v = "ACME_API_KEY" then some "realsecret" else none)
    (by decide) (by decide) rfl (by decide) rfl (by decide)
  simpa [secretThunkSource, upperUnderscore, jsToUpper] using this

/-- Counterexample to C4.  An upstream reply that parses as JSON but does
*not* match the expected structured shape (its `type` is outside the
four-intent enumeration) is returned by the Router verbatim, with intent
`"banana"` rather than the claimed `tool_execution` fallback: the Router
only validates truthiness of `type`/`reasoning`, not the shape. -/
theorem router_returns_malformed_decision_counterexample :
    specExpectedRoutingShape cexRouterParsed = false ∧
    llmRouter "what is the weather" [] cexRouterParse
        (.resp true (some cexRouterReply)) = cexRouterParsed ∧
    jget cexRouterParsed "type" = some (.str "banana") ∧
    "banana" ≠ "tool_execution" :=
  ⟨rfl, rfl, rfl, by decide⟩

/-- C4 as amended: the Router never propagates an upstream failure — when
the call throws, the status is non-OK, the content is missing or empty, the
content fails JSON parsing, or the parsed value lacks a truthy `type` or
`reasoning` field, it returns the `tool_execution` default with a reasoning
string noting the fallback.  (A parsed object with truthy `type` and
`reasoning` is however returned as-is, even when its `type` lies outside
the four-intent schema — see the counterexample.) -/
theorem llmRouter_degrades_to_tool_execution (userQuery : String)
    (history : List ChatMsg) (jsonParse : String → Option Json)
    (upstream : RouterUpstream)
    (h : routerDegradeCase jsonParse upstream) :
    jget (llmRouter userQuery history jsonParse upstream) "type"
        = some (.str "tool_execution") ∧
    (jget (llmRouter userQuery history jsonParse upstream) "reasoning"
        = some (.str "routing failed, defaulting to tool execution") ∨
     jget (llmRouter userQuery history jsonParse upstream) "reasoning"
        = some (.str "router error, defaulting to tool execution")) := by
  rcases h with h | ⟨c, h⟩ | h | h | ⟨s, h, hs, hp⟩ | ⟨s, j, h, hs, hp, hv⟩
  · subst h; exact ⟨rfl, Or.inr rfl⟩
  · subst h; exact ⟨rfl, Or.inr rfl⟩
  · subst h; exact ⟨rfl, Or.inl rfl⟩
  · subst h; exact ⟨rfl, Or.inl rfl⟩
  · subst h
    unfold llmRouter
    simp only [Bool.not_true, if_false, hs, hp]
    simp [hs, routerFallbackParse, jget]
  · subst h
    unfold llmRouter
    simp only [Bool.not_true, if_false, hs, hp, hv]
    simp [hs, hv, routerFallbackParse, jget]

/-- Witness for the amended C4 at a concrete input: a thrown upstream call
yields the `tool_execution` fallback. -/
theorem llmRouter_degrades_to_tool_execution_witness :
    jget (llmRouter "hello" [] (fun _ => none) .fetchThrow) "type"
        = some (.str "tool_execution") ∧
    (jget (llmRouter "hello" [] (fun _ => none) .fetchThrow) "reasoning"
        = some (.str "routing failed, defaulting to tool execution") ∨
     jget (llmRouter "hello" [] (fun _ => none) .fetchThrow) "reasoning"
        = some (.str "router error, defaulting to tool execution")) :=
  llmRouter_degrades_to_tool_execution "hello" [] (fun _ => none) .fetchThrow
    (Or.inl rfl)

/-- Counterexample to C7.  When the upstream model's raw reply names four
tools, the Selection Engine parses and passes all four onward — nothing in
the code enforces the 3-entry cap (it is only requested in the prompt), so
the SelectionResult handed to execution or curl generation has more than 3
selected tools. -/
theorem selection_cap_not_enforced_counterexample :
    parseSelection cexSelectionParse cexSelectionReply = .ok cexSelectionJson ∧
    (executionToolNames cexSelectionJson).length = 4 ∧ 3 < 4 := by
  refine ⟨?_, rfl, by decide⟩
  rfl

/-- C7 as amended: the Selection Engine forwards exactly the entries of the
model's `selected_tools` array — the prompt asks for 1–3 tools, but no cap
is enforced, so the SelectionResult passed onward contains exactly as many
entries as the model's reply, however many that is. -/
theorem selection_forwards_model_entries (jsonParse : String → Option Json)
    (text : String) (j : Json) (xs : List Json)
    (hok : parseSelection jsonParse text = .ok j)
    (harr : jget j "selected_tools" = some (.arr xs)) :
    executionToolNames j = xs.map (fun t => jget t "name") ∧
    (executionToolNames j).length = xs.length := by
  unfold executionToolNames
  rw [harr]
  exact ⟨rfl, by simp⟩

/-- Witness for the amended C7 at a concrete input. -/
theorem selection_forwards_model_entries_witness :
    executionToolNames cexSelectionJson
      = [cexSelEntry "github", cexSelEntry "huggingface",
         cexSelEntry "parallel_web_search", cexSelEntry "extra_tool"].map
          (fun t => jget t "name") ∧
    (executionToolNames cexSelectionJson).length
      = [cexSelEntry "github", cexSelEntry "huggingface",
         cexSelEntry "parallel_web_search", cexSelEntry "extra_tool"].length :=
  selection_forwards_model_entries cexSelectionParse cexSelectionReply
    cexSelectionJson _ rfl rfl

/-! ### C6: URL-literal tool names -/

/-- C6.  A requested name that parses as an absolute http/https URL (and is
not a static-registry key) resolves to the synthesized descriptor — label
`Custom MCP Server (<hostname>)`, `server_url` equal to the input, empty
default headers — and the chain never consults the public registry for it. -/
theorem url_name_synthesizes_descriptor (w : World)
    (discovered : List (String × List String)) (name : String) (u : UrlObj)
    (hparse : w.parseUrl name = some u)
    (hproto : u.protocol = "http:" ∨ u.protocol = "https:")
    (_hreg : alookup toolsRegistry name = none) :
    (resolveName w discovered name).config = some (.config
      { type := "mcp"
        server_label := "Custom MCP Server (" ++ u.hostname ++ ")"
        server_url := name
        headers := some []
        require_approval := "never"
        hasMeta := true
        registry := none }) ∧
    (resolveName w discovered name).lookedUpRegistry = false := by
  have hurl : isUrlTool w name = true := by
    unfold isUrlTool
    rw [hparse]
    rcases hproto with h | h <;> simp [h]
  have hcreate : createConfigFromUrl w name = some
      { type := "mcp"
        server_label := "Custom MCP Server (" ++ u.hostname ++ ")"
        server_url := name
        headers := some []
        require_approval := "never"
        hasMeta := true
        registry := none } := by
    unfold createConfigFromUrl getMcpServerConfig
    rw [hparse]
    rfl
  unfold resolveName
  simp [hurl, hcreate]

/-- Witness for C6 at a concrete input. -/
theorem url_name_synthesizes_descriptor_witness :
    (resolveName cexUrlWorld [] "https://example.com/mcp").config = some (.config
      { type := "mcp"
        server_label := "Custom MCP Server (" ++ "example.com" ++ ")"
        server_url := "https://example.com/mcp"
        headers := some []
        require_approval := "never"
        hasMeta := true
        registry := none }) ∧
    (resolveName cexUrlWorld [] "https://example.com/mcp").lookedUpRegistry
      = false :=
  url_name_synthesizes_descriptor cexUrlWorld [] "https://example.com/mcp"
    { protocol := "https:", hostname := "example.com" } rfl (Or.inr rfl) rfl

/-! ### C8: all-or-nothing resolution -/

/-- The resolution loop aborts at the first unresolved name. -/
theorem resolveLoop_aborts_at_first_unresolved (w : World)
    (discovered : List (String × List String))
    (uth : List (String × List (String × String)))
    (pre post : List String) (n : String)
    (hpre : ∀ m ∈ pre, ((resolveName w discovered m).config).isSome = true)
    (hn : (resolveName w discovered n).config = none) :
    resolveLoop w discovered uth (pre ++ n :: post) = .notFound n := by
  induction pre with
  | nil => simp only [List.nil_append, resolveLoop, hn]
  | cons hd tl ih =>
      obtain ⟨c, hc⟩ := Option.isSome_iff_exists.mp
        (hpre hd (List.mem_cons_self hd tl))
      have htl : ∀ m ∈ tl, ((resolveName w discovered m).config).isSome = true :=
        fun m hm => hpre m (List.mem_cons_of_mem hd hm)
      simp only [List.cons_append, resolveLoop, hc, List.append_eq]
      rw [ih htl]

/-- When every name resolves, the loop succeeds. -/
theorem resolveLoop_ok_of_all_resolve (w : World)
    (discovered : List (String × List String))
    (uth : List (String × List (String × String)))
    (names : List String)
    (h : ∀ m ∈ names, ((resolveName w discovered m).config).isSome = true) :
    ∃ tools, resolveLoop w discovered uth names = .ok tools := by
  induction names with
  | nil => exact ⟨[], rfl⟩
  | cons hd tl ih =>
      obtain ⟨c, hc⟩ := Option.isSome_iff_exists.mp
        (h hd (List.mem_cons_self hd tl))
      obtain ⟨tools, htools⟩ := ih (fun m hm => h m (List.mem_cons_of_mem hd hm))
      refine ⟨resolveFound c (headersForTool uth hd) w.env :: tools, ?_⟩
      simp only [resolveLoop, hc, htools]

/-- Support for C8: when a name's resolution chain genuinely produces
`null`/`undefined` at every step, `handleToolExecution` returns the 404
not-found error naming the *first* such tool and issues no Upstream Gateway
call.  (This is only half the story: see
the C8 theorem below for the local-install-only path, where resolution
*should* fail but the code hands back a truthy note string instead.) -/
theorem unresolved_name_aborts_batch (w : World) (toolsParam query : String)
    (uth : List (String × List (String × String)))
    (discovered : List (String × List String))
    (pre post : List String) (n : String)
    (htp : toolsParam ≠ "") (hq : query ≠ "")
    (hsplit : (jsSplit toolsParam ',').map jsTrim = pre ++ n :: post)
    (hpre : ∀ m ∈ pre, ((resolveName w discovered m).config).isSome = true)
    (hn : (resolveName w discovered n).config = none) :
    (handleToolExecution w toolsParam query uth discovered).result
        = notFoundResponse n ∧
    (jget (notFoundResponse n) "response").map (fun r => jget r "error")
        = some (some (.str ("Tool '" ++ n ++
            "' not found in local registry, MCP registry, or is not a valid URL"))) ∧
    (handleToolExecution w toolsParam query uth discovered).gwCalls = [] := by
  have hloop := resolveLoop_aborts_at_first_unresolved w discovered uth
    pre post n hpre hn
  unfold handleToolExecution
  rw [if_neg htp, if_neg hq, hsplit, hloop]
  exact ⟨rfl, rfl, rfl⟩

/-- The support theorem at a concrete input: the batch
`"github,unknown_xyz,huggingface"` aborts on `unknown_xyz` with the 404
response and zero gateway calls. -/
theorem unresolved_name_aborts_batch_witness :
    (handleToolExecution cexExecWorld "github,unknown_xyz,huggingface"
        "list my repos" [] []).result = notFoundResponse "unknown_xyz" ∧
    (jget (notFoundResponse "unknown_xyz") "response").map (fun r => jget r "error")
        = some (some (.str ("Tool '" ++ "unknown_xyz" ++
            "' not found in local registry, MCP registry, or is not a valid URL"))) ∧
    (handleToolExecution cexExecWorld "github,unknown_xyz,huggingface"
        "list my repos" [] []).gwCalls = [] := by
  have happ : (jsSplit "github,unknown_xyz,huggingface" ',').map jsTrim
      = ["github"] ++ "unknown_xyz" :: ["huggingface"] := rfl
  refine unresolved_name_aborts_batch cexExecWorld
    "github,unknown_xyz,huggingface" "list my repos" [] []
    ["github"] ["huggingface"] "unknown_xyz"
    (by decide) (by decide) happ ?_ rfl
  intro m hm
  have hm' : m = "github" := by simpa using hm
  subst hm'
  rfl

/-- C8, refuted on the local-install-only path (code bug).  The claim says
a name that fails to resolve yields the 404 response and no gateway call.
But for the batch `"filesystem_local"`, whose only catalog match advertises
no remote endpoint — a case the source's own comment marks `Server requires
local installation` before its intended `return null` — the misfiring
`configMap[configKey].note` guard makes the lookup return the truthy note
*string*; the chain records the name as resolved, `resolveToolConfig`
spreads the string into a junk object carrying only the caller headers, and
`handleToolExecution` issues exactly one Upstream Gateway call with that
junk tool and reports success instead of returning the 404. -/
theorem local_install_only_name_executes_batch :
    lookupFromMcpRegistry cexNoteWorld.catalog "filesystem_local"
        = some (.noteStr localInstallNoteText) ∧
    (resolveName cexNoteWorld [] "filesystem_local").config
        = some (.noteStr localInstallNoteText) ∧
    (handleToolExecution cexNoteWorld "filesystem_local" "list my files"
        [] []).gwCalls.map Prod.snd
      = [[ResolvedTool.junk localInstallNoteText []]] ∧
    (handleToolExecution cexNoteWorld "filesystem_local" "list my files"
        [] []).gwCalls.length = 1 ∧
    jget (handleToolExecution cexNoteWorld "filesystem_local" "list my files"
        [] []).result "error"
      = some (.bool false) := by
  exact ⟨rfl, rfl, rfl, rfl, rfl⟩

/-! ### C3: gateway-call discipline of the Execution Orchestrator -/

/-- The error branch never issues more than one retry. -/
theorem execOnError_len_le_two (w : World) (tns : List String) (mq : String)
    (tools : List ResolvedTool) (e : String) :
    (execOnError w tns mq tools e).gwCalls.length ≤ 2 := by
  unfold execOnError
  by_cases hc : (containsStr e "did not match schema" &&
      decide (tns.length = 1)) = true
  · rw [if_pos hc]
    cases hgw1 : w.gw 1 with
    | ok r => simp
    | error e2 => simp
  · rw [if_neg hc]
    simp

/-- No retry for a batch that does not name exactly one tool. -/
theorem execOnError_multi_one_call (w : World) (tns : List String)
    (mq : String) (tools : List ResolvedTool) (e : String)
    (h : tns.length ≠ 1) :
    (execOnError w tns mq tools e).gwCalls.length = 1 := by
  unfold execOnError
  by_cases hc : (containsStr e "did not match schema" &&
      decide (tns.length = 1)) = true
  · rw [Bool.and_eq_true] at hc
    exact absurd (by simpa using hc.2) h
  · rw [if_neg hc]
    simp

/-- Two recorded calls in the error branch force a single-tool batch, the
schema-validation signature, and the simplified retry query. -/
theorem execOnError_two_calls (w : World) (tns : List String) (mq : String)
    (tools : List ResolvedTool) (e : String)
    (h : (execOnError w tns mq tools e).gwCalls.length = 2) :
    tns.length = 1 ∧ containsStr e "did not match schema" = true ∧
    ((execOnError w tns mq tools e).gwCalls.getLast?).map Prod.fst
      = some ("Use the " ++ tns.headD "" ++ " tool") := by
  unfold execOnError at h ⊢
  by_cases hc : (containsStr e "did not match schema" &&
      decide (tns.length = 1)) = true
  · rw [if_pos hc] at h ⊢
    have hc' := hc
    rw [Bool.and_eq_true] at hc'
    refine ⟨by simpa using hc'.2, hc'.1, ?_⟩
    cases hgw1 : w.gw 1 with
    | ok r => rfl
    | error e2 => rfl
  · rw [if_neg hc] at h
    simp at h

/-- The gateway/retry phase never issues more than two calls. -/
theorem execAfterResolve_len_le_two (w : World) (tns : List String)
    (q : String) (tools : List ResolvedTool) :
    (execAfterResolve w tns q tools).gwCalls.length ≤ 2 := by
  cases hgw : w.gw 0 with
  | ok r =>
      have heq : execAfterResolve w tns q tools =
          { result := .obj [("error", .bool false), ("response", r)],
            gwCalls := [(modifiedQueryFor w tns q tools, tools)] } := by
        unfold execAfterResolve
        rw [hgw]
      rw [heq]
      simp
  | error e =>
      have heq : execAfterResolve w tns q tools =
          execOnError w tns (modifiedQueryFor w tns q tools) tools e := by
        unfold execAfterResolve
        rw [hgw]
      rw [heq]
      exact execOnError_len_le_two w tns _ tools e

/-- A batch that does not name exactly one tool gets exactly one gateway
call, whatever the first call's outcome. -/
theorem execAfterResolve_multi_one_call (w : World) (tns : List String)
    (q : String) (tools : List ResolvedTool) (h : tns.length ≠ 1) :
    (execAfterResolve w tns q tools).gwCalls.length = 1 := by
  cases hgw : w.gw 0 with
  | ok r =>
      have heq : execAfterResolve w tns q tools =
          { result := .obj [("error", .bool false), ("response", r)],
            gwCalls := [(modifiedQueryFor w tns q tools, tools)] } := by
        unfold execAfterResolve
        rw [hgw]
      rw [heq]
      rfl
  | error e =>
      have heq : execAfterResolve w tns q tools =
          execOnError w tns (modifiedQueryFor w tns q tools) tools e := by
        unfold execAfterResolve
        rw [hgw]
      rw [heq]
      exact execOnError_multi_one_call w tns _ tools e h

/-- Two gateway calls happen only for a single-tool batch whose first call
failed with the schema-validation signature, and the second call's query is
the simplified one naming the tool. -/
theorem execAfterResolve_two_calls (w : World) (tns : List String)
    (q : String) (tools : List ResolvedTool)
    (h : (execAfterResolve w tns q tools).gwCalls.length = 2) :
    tns.length = 1 ∧
    (∃ e, w.gw 0 = .error e ∧ containsStr e "did not match schema" = true) ∧
    ((execAfterResolve w tns q tools).gwCalls.getLast?).map Prod.fst
      = some ("Use the " ++ tns.headD "" ++ " tool") := by
  cases hgw : w.gw 0 with
  | ok r =>
      have heq : execAfterResolve w tns q tools =
          { result := .obj [("error", .bool false), ("response", r)],
            gwCalls := [(modifiedQueryFor w tns q tools, tools)] } := by
        unfold execAfterResolve
        rw [hgw]
      rw [heq] at h
      simp at h
  | error e =>
      have heq : execAfterResolve w tns q tools =
          execOnError w tns (modifiedQueryFor w tns q tools) tools e := by
        unfold execAfterResolve
        rw [hgw]
      rw [heq] at h ⊢
      obtain ⟨h1, h2, h3⟩ := execOnError_two_calls w tns _ tools e h
      exact ⟨h1, ⟨e, rfl, h2⟩, h3⟩

/-- C3.  Per execution request: a single-tool batch issues at most 2
Upstream Gateway calls and any other batch at most 1; whenever 2 calls
happen, the batch named exactly one tool, the first call failed with the
schema-validation signature, and the retry used the simplified query that
just names the tool; and a multi-tool batch with valid parameters whose
names all resolve issues exactly 1 call, under every outcome of that call. -/
theorem exec_gateway_call_discipline (w : World) (toolsParam query : String)
    (uth : List (String × List (String × String)))
    (discovered : List (String × List String)) :
    (((jsSplit toolsParam ',').map jsTrim).length = 1 →
       (handleToolExecution w toolsParam query uth discovered).gwCalls.length ≤ 2) ∧
    (((jsSplit toolsParam ',').map jsTrim).length ≠ 1 →
       (handleToolExecution w toolsParam query uth discovered).gwCalls.length ≤ 1) ∧
    ((handleToolExecution w toolsParam query uth discovered).gwCalls.length = 2 →
       ((jsSplit toolsParam ',').map jsTrim).length = 1 ∧
       (∃ e, w.gw 0 = .error e ∧
          containsStr e "did not match schema" = true) ∧
       ((handleToolExecution w toolsParam query uth discovered).gwCalls.getLast?).map
           Prod.fst
         = some ("Use the " ++ ((jsSplit toolsParam ',').map jsTrim).headD ""
             ++ " tool")) ∧
    (toolsParam ≠ "" → query ≠ "" →
       1 < ((jsSplit toolsParam ',').map jsTrim).length →
       (∀ m ∈ (jsSplit toolsParam ',').map jsTrim,
          ((resolveName w discovered m).config).isSome = true) →
       (handleToolExecution w toolsParam query uth discovered).gwCalls.length = 1) := by
  unfold handleToolExecution
  by_cases htp : toolsParam = ""
  · rw [if_pos htp]
    exact ⟨fun _ => by simp, fun _ => by simp,
      fun h => absurd h (by simp), fun h => absurd htp h⟩
  · rw [if_neg htp]
    by_cases hq : query = ""
    · rw [if_pos hq]
      exact ⟨fun _ => by simp, fun _ => by simp,
        fun h => absurd h (by simp), fun _ h => absurd hq h⟩
    · rw [if_neg hq]
      cases hloop : resolveLoop w discovered uth
          ((jsSplit toolsParam ',').map jsTrim) with
      | notFound n =>
          refine ⟨fun _ => by simp, fun _ => by simp,
            fun h => absurd h (by simp), ?_⟩
          intro _ _ _ hall
          obtain ⟨tools, htools⟩ :=
            resolveLoop_ok_of_all_resolve w discovered uth _ hall
          rw [htools] at hloop
          exact LoopResult.noConfusion hloop
      | ok tools =>
          refine ⟨fun _ => execAfterResolve_len_le_two w _ query tools,
            fun hne => le_of_eq (execAfterResolve_multi_one_call w _ query tools hne),
            fun h2 => execAfterResolve_two_calls w _ query tools h2,
            fun _ _ hlen _ =>
              execAfterResolve_multi_one_call w _ query tools (by omega)⟩

/-- Witness for C3 at a concrete input: a resolvable two-tool batch issues
exactly one gateway call even though that call fails. -/
theorem exec_gateway_call_discipline_witness :
    (handleToolExecution cexExecWorld "github,huggingface" "list my repos"
        [] []).gwCalls.length = 1 := by
  refine (exec_gateway_call_discipline cexExecWorld "github,huggingface"
      "list my repos" [] []).2.2.2 (by decide) (by decide) (by decide) ?_
  intro m hm
  have hm' : m = "github" ∨ m = "huggingface" := by
    have : (jsSplit "github,huggingface" ',').map jsTrim
        = ["github", "huggingface"] := rfl
    rw [this] at hm
    simpa using hm
  rcases hm' with h | h <;> (subst h; rfl)

/-- Counterexample to C2.  The sanitization in the curl-generation path
only replaces header values longer than 10 characters, so the resolved
value `"secret1234"` of the credential-heuristic header `x-auth` appears
verbatim in the emitted command string. -/
theorem short_credential_value_not_redacted_counterexample :
    credHeaderMatch "x-auth" = true ∧
    containsStr (generateCurlFromResult "openai/gpt-oss-120b" cexCurlResult)
        "secret1234" = true := by
  exact ⟨by decide, by decide⟩

/-- C2 as amended: redaction applies exactly to credential-heuristic
headers whose string value is longer than 10 characters — those values are
replaced in the embedded tool configuration by a bracketed placeholder
(service-specific or derived from the header name); shorter values pass
through verbatim. -/
theorem credential_header_sanitization (key value : String)
    (hmatch : credHeaderMatch key = true) (hlen : 10 < value.length) :
    sanitizeHeaderVal key value = credPlaceholder key ∧
    (credPlaceholder key).data.head? = some '<' ∧
    (credPlaceholder key).data.getLast? = some '>' := by
  refine ⟨?_, ?_, ?_⟩
  · unfold sanitizeHeaderVal
    rw [if_pos hlen, if_pos hmatch]
  · unfold credPlaceholder
    by_cases h1 : key = "x-api-key"
    · rw [if_pos h1]; rfl
    · rw [if_neg h1]
      by_cases h2 : containsStr (jsToLower key) "github" = true
      · rw [if_pos h2]; rfl
      · rw [if_neg h2]
        by_cases h3 : containsStr (jsToLower key) "hugging" = true
        · rw [if_pos h3]; rfl
        · rw [if_neg h3]
          cases hupper : upperUnderscore key with
          | mk data => rfl
  · unfold credPlaceholder
    by_cases h1 : key = "x-api-key"
    · rw [if_pos h1]; rfl
    · rw [if_neg h1]
      by_cases h2 : containsStr (jsToLower key) "github" = true
      · rw [if_pos h2]; rfl
      · rw [if_neg h2]
        by_cases h3 : containsStr (jsToLower key) "hugging" = true
        · rw [if_pos h3]; rfl
        · rw [if_neg h3]
          cases hupper : upperUnderscore key with
          | mk data =>
              show (("<" ++ String.mk data ++ ">").data).getLast? = some '>'
              have hdata : ("<" ++ String.mk data ++ ">").data
                  = '<' :: (data ++ ['>']) := rfl
              rw [hdata,
                show '<' :: (data ++ ['>']) = ('<' :: data) ++ ['>'] from
                  (List.cons_append _ _ _).symm,
                List.getLast?_concat]

/-- Witness for the amended C2 at a concrete input. -/
theorem credential_header_sanitization_witness :
    sanitizeHeaderVal "my-auth-token" "secretsecret"
        = credPlaceholder "my-auth-token" ∧
    (credPlaceholder "my-auth-token").data.head? = some '<' ∧
    (credPlaceholder "my-auth-token").data.getLast? = some '>' :=
  credential_header_sanitization "my-auth-token" "secretsecret"
    (by decide) (by decide)

theorem list_get?_append3_last {α : Type} (l : List α) (a b c : α) :
    (l ++ [a, b, c]).get? (l.length + 2) = some c := by
  rw [show l ++ [a, b, c] = (l ++ [a, b]) ++ [c] by simp,
    show l.length + 2 = (l ++ [a, b]).length by simp]
  exact List.get?_concat_length _ _

theorem list_get?_append3_mid {α : Type} (l : List α) (a b c : α) :
    (l ++ [a, b, c]).get? (l.length + 1) = some b := by
  rw [show l ++ [a, b, c] = (l ++ [a]) ++ [b, c] by simp]
  rw [List.get?_append_right (by simp)]
  simp

theorem list_get?_append2_last {α : Type} (l : List α) (a b : α) :
    (l ++ [a, b]).get? (l.length + 1) = some b := by
  rw [show l ++ [a, b] = (l ++ [a]) ++ [b] by simp,
    show l.length + 1 = (l ++ [a]).length by simp]
  exact List.get?_concat_length _ _

theorem list_get?_append2_head {α : Type} (l : List α) (a b : α) :
    (l ++ [a, b]).get? l.length = some a := by
  rw [List.get?_append_right (Nat.le_refl _)]
  simp

/-- Branch characterization, object-valued `headers`: the call appends
exactly three fresh objects and returns a reference to the third. -/
theorem resolveHeap_objs_some (h : Heap) (cfgRef : Nat)
    (uh : List (String × String)) (env : Env) (hid : Nat)
    (hf : headersRefOf (h.getObj cfgRef) = some hid) :
    ((resolveToolConfigHeap h cfgRef uh env).1).objs
      = h.objs ++ [rhOf h hid uh env,
          objSpread (rhOf h hid uh env) (userValsOf uh),
          objSet (baseOf h cfgRef) "headers" (.ref (h.objs.length + 1))] ∧
    (resolveToolConfigHeap h cfgRef uh env).2 = h.objs.length + 2 := by
  unfold resolveToolConfigHeap
  rw [hf]
  unfold Heap.alloc
  constructor
  · simp
  · simp

/-- Branch characterization, no object-valued `headers`: the call appends
exactly two fresh objects and returns a reference to the second. -/
theorem resolveHeap_objs_none (h : Heap) (cfgRef : Nat)
    (uh : List (String × String)) (env : Env)
    (hf : headersRefOf (h.getObj cfgRef) = none) :
    ((resolveToolConfigHeap h cfgRef uh env).1).objs
      = h.objs ++ [userValsOf uh,
          objSet (baseOf h cfgRef) "headers" (.ref h.objs.length)] ∧
    (resolveToolConfigHeap h cfgRef uh env).2 = h.objs.length + 1 := by
  unfold resolveToolConfigHeap
  rw [hf]
  unfold Heap.alloc
  constructor
  · simp
  · simp

/-- (C9, part 1)  The resolution only *appends* to the heap: every
pre-existing object — the stored descriptor, its header thunks and metadata
included — is unchanged after the call. -/
theorem resolveToolConfigHeap_appends (h : Heap) (cfgRef : Nat)
    (uh : List (String × String)) (env : Env) :
    ∃ tail, ((resolveToolConfigHeap h cfgRef uh env).1).objs
      = h.objs ++ tail := by
  cases hf : headersRefOf (h.getObj cfgRef) with
  | some hid => exact ⟨_, (resolveHeap_objs_some h cfgRef uh env hid hf).1⟩
  | none => exact ⟨_, (resolveHeap_objs_none h cfgRef uh env hf).1⟩

/-- The materialized headers of a resolution equal `mergedHeadersOf` of the
pre-call heap. -/
theorem readHeaders_resolveToolConfigHeap (h : Heap) (cfgRef : Nat)
    (uh : List (String × String)) (env : Env) :
    readHeaders (resolveToolConfigHeap h cfgRef uh env).1
        (resolveToolConfigHeap h cfgRef uh env).2
      = some (mergedHeadersOf h cfgRef uh env) := by
  cases hf : headersRefOf (h.getObj cfgRef) with
  | some hid =>
      obtain ⟨h1, h2⟩ := resolveHeap_objs_some h cfgRef uh env hid hf
      have hheap : (resolveToolConfigHeap h cfgRef uh env).1
          = Heap.mk (h.objs ++ [rhOf h hid uh env,
              objSpread (rhOf h hid uh env) (userValsOf uh),
              objSet (baseOf h cfgRef) "headers" (.ref (h.objs.length + 1))]) := by
        cases hhh : (resolveToolConfigHeap h cfgRef uh env).1 with
        | mk objs => rw [hhh] at h1; exact congrArg Heap.mk h1
      have hget3 : (Heap.mk (h.objs ++ [rhOf h hid uh env,
              objSpread (rhOf h hid uh env) (userValsOf uh),
              objSet (baseOf h cfgRef) "headers"
                (.ref (h.objs.length + 1))])).getObj (h.objs.length + 2)
          = objSet (baseOf h cfgRef) "headers" (.ref (h.objs.length + 1)) := by
        unfold Heap.getObj
        rw [list_get?_append3_last]
        rfl
      have hgetmid : (Heap.mk (h.objs ++ [rhOf h hid uh env,
              objSpread (rhOf h hid uh env) (userValsOf uh),
              objSet (baseOf h cfgRef) "headers"
                (.ref (h.objs.length + 1))])).getObj (h.objs.length + 1)
          = objSpread (rhOf h hid uh env) (userValsOf uh) := by
        unfold Heap.getObj
        rw [list_get?_append3_mid]
        rfl
      unfold readHeaders
      rw [hheap, h2, hget3, alookup_objSet_self]
      show some ((Heap.mk (h.objs ++ [rhOf h hid uh env,
          objSpread (rhOf h hid uh env) (userValsOf uh),
          objSet (baseOf h cfgRef) "headers"
            (.ref (h.objs.length + 1))])).getObj (h.objs.length + 1))
        = some (mergedHeadersOf h cfgRef uh env)
      rw [hgetmid]
      unfold mergedHeadersOf
      rw [hf]
  | none =>
      obtain ⟨h1, h2⟩ := resolveHeap_objs_none h cfgRef uh env hf
      have hheap : (resolveToolConfigHeap h cfgRef uh env).1
          = Heap.mk (h.objs ++ [userValsOf uh,
              objSet (baseOf h cfgRef) "headers" (.ref h.objs.length)]) := by
        cases hhh : (resolveToolConfigHeap h cfgRef uh env).1 with
        | mk objs => rw [hhh] at h1; exact congrArg Heap.mk h1
      have hget2 : (Heap.mk (h.objs ++ [userValsOf uh,
              objSet (baseOf h cfgRef) "headers"
                (.ref h.objs.length)])).getObj (h.objs.length + 1)
          = objSet (baseOf h cfgRef) "headers" (.ref h.objs.length) := by
        unfold Heap.getObj
        rw [list_get?_append2_last]
        rfl
      have hgethead : (Heap.mk (h.objs ++ [userValsOf uh,
              objSet (baseOf h cfgRef) "headers"
                (.ref h.objs.length)])).getObj h.objs.length
          = userValsOf uh := by
        unfold Heap.getObj
        rw [list_get?_append2_head]
        rfl
      unfold readHeaders
      rw [hheap, h2, hget2, alookup_objSet_self]
      show some ((Heap.mk (h.objs ++ [userValsOf uh,
          objSet (baseOf h cfgRef) "headers"
            (.ref h.objs.length)])).getObj h.objs.length)
        = some (mergedHeadersOf h cfgRef uh env)
      rw [hgethead]
      unfold mergedHeadersOf
      rw [hf]

/-- `mergedHeadersOf` depends only on the objects the descriptor can reach,
so appending fresh objects leaves it unchanged. -/
theorem mergedHeadersOf_append (h : Heap) (tail : List JsObj) (cfgRef : Nat)
    (uh : List (String × String)) (env : Env)
    (href : cfgRef < h.objs.length)
    (hok : headersRefOk (h.getObj cfgRef) h.objs.length = true) :
    mergedHeadersOf (Heap.mk (h.objs ++ tail)) cfgRef uh env
      = mergedHeadersOf h cfgRef uh env := by
  have hcfg : (Heap.mk (h.objs ++ tail)).getObj cfgRef = h.getObj cfgRef := by
    unfold Heap.getObj
    rw [List.get?_append href]
  unfold mergedHeadersOf
  rw [hcfg]
  cases hf : headersRefOf (h.getObj cfgRef) with
  | some hid =>
      have hhid : hid < h.objs.length := by
        unfold headersRefOk at hok
        rw [hf] at hok
        simpa using hok
      have hhdr : (Heap.mk (h.objs ++ tail)).getObj hid = h.getObj hid := by
        unfold Heap.getObj
        rw [List.get?_append hhid]
      show objSpread (rhOf (Heap.mk (h.objs ++ tail)) hid uh env) (userValsOf uh)
        = objSpread (rhOf h hid uh env) (userValsOf uh)
      unfold rhOf
      rw [hhdr]
  | none => rfl

/-- C9.  The Credential Resolver is pure on the heap model: (1) resolving
never mutates any pre-existing object — the registry's stored descriptor,
its header thunks and metadata are bit-for-bit unchanged (the pre-call heap
is a prefix of the post-call heap); (2) two sequential resolutions of the
same descriptor with identical inputs materialize byte-identical resolved
headers; (3) resolving the same descriptor with different caller headers
after an earlier resolution yields exactly what a fresh resolution with
those headers yields — the first call's overrides never leak into the
second. -/
theorem resolveToolConfigHeap_pure (h : Heap) (cfgRef : Nat)
    (uh1 uh2 : List (String × String)) (env : Env)
    (href : cfgRef < h.objs.length)
    (hok : headersRefOk (h.getObj cfgRef) h.objs.length = true) :
    (∃ tail, ((resolveToolConfigHeap h cfgRef uh1 env).1).objs
        = h.objs ++ tail) ∧
    (readHeaders
        (resolveToolConfigHeap (resolveToolConfigHeap h cfgRef uh1 env).1
          cfgRef uh1 env).1
        (resolveToolConfigHeap (resolveToolConfigHeap h cfgRef uh1 env).1
          cfgRef uh1 env).2
      = readHeaders (resolveToolConfigHeap h cfgRef uh1 env).1
          (resolveToolConfigHeap h cfgRef uh1 env).2) ∧
    (readHeaders
        (resolveToolConfigHeap (resolveToolConfigHeap h cfgRef uh1 env).1
          cfgRef uh2 env).1
        (resolveToolConfigHeap (resolveToolConfigHeap h cfgRef uh1 env).1
          cfgRef uh2 env).2
      = readHeaders (resolveToolConfigHeap h cfgRef uh2 env).1
          (resolveToolConfigHeap h cfgRef uh2 env).2) := by
  obtain ⟨tail, htail⟩ := resolveToolConfigHeap_appends h cfgRef uh1 env
  have hstable : ∀ uh : List (String × String),
      readHeaders (resolveToolConfigHeap (resolveToolConfigHeap h cfgRef uh1 env).1
          cfgRef uh env).1
        (resolveToolConfigHeap (resolveToolConfigHeap h cfgRef uh1 env).1
          cfgRef uh env).2
        = readHeaders (resolveToolConfigHeap h cfgRef uh env).1
            (resolveToolConfigHeap h cfgRef uh env).2 := by
    intro uh
    rw [readHeaders_resolveToolConfigHeap, readHeaders_resolveToolConfigHeap]
    have hrepr : (resolveToolConfigHeap h cfgRef uh1 env).1
        = Heap.mk (h.objs ++ tail) := by
      cases hh : (resolveToolConfigHeap h cfgRef uh1 env).1 with
      | mk objs => rw [hh] at htail; exact congrArg Heap.mk htail
    rw [hrepr, mergedHeadersOf_append h tail cfgRef uh env href hok]
  exact ⟨⟨tail, htail⟩, hstable uh1, hstable uh2⟩

/-- Witness for C9 at a concrete input: resolving the stored descriptor
with a caller override, then again with no caller headers, leaves the heap
prefix intact and reproduces the fresh no-override resolution exactly. -/
theorem resolveToolConfigHeap_pure_witness :
    (∃ tail, ((resolveToolConfigHeap cexHeap 1
        [("Authorization", "Bearer MINE")] (fun _ => some "tok")).1).objs
      = cexHeap.objs ++ tail) ∧
    (readHeaders
        (resolveToolConfigHeap (resolveToolConfigHeap cexHeap 1
          [("Authorization", "Bearer MINE")] (fun _ => some "tok")).1
          1 [("Authorization", "Bearer MINE")] (fun _ => some "tok")).1
        (resolveToolConfigHeap (resolveToolConfigHeap cexHeap 1
          [("Authorization", "Bearer MINE")] (fun _ => some "tok")).1
          1 [("Authorization", "Bearer MINE")] (fun _ => some "tok")).2
      = readHeaders (resolveToolConfigHeap cexHeap 1
            [("Authorization", "Bearer MINE")] (fun _ => some "tok")).1
          (resolveToolConfigHeap cexHeap 1
            [("Authorization", "Bearer MINE")] (fun _ => some "tok")).2) ∧
    (readHeaders
        (resolveToolConfigHeap (resolveToolConfigHeap cexHeap 1
          [("Authorization", "Bearer MINE")] (fun _ => some "tok")).1
          1 [] (fun _ => some "tok")).1
        (resolveToolConfigHeap (resolveToolConfigHeap cexHeap 1
          [("Authorization", "Bearer MINE")] (fun _ => some "tok")).1
          1 [] (fun _ => some "tok")).2
      = readHeaders (resolveToolConfigHeap cexHeap 1 []
            (fun _ => some "tok")).1
          (resolveToolConfigHeap cexHeap 1 [] (fun _ => some "tok")).2) :=
  resolveToolConfigHeap_pure cexHeap 1
    [("Authorization", "Bearer MINE")] [] (fun _ => some "tok")
    (by decide) rfl

end McpNav
